import Mathlib

/-!
Verification of the Yquoter caching / data-source-dispatch core.

This file gives a shallow embedding of the cache subsystem (`yquoter/cache.py`),
the date normalizer (`yquoter/utils.py`: `parse_date_str`), the most-recently-cached
path pointer (`yquoter/config.py`: `modify_df_path`) and the fetch orchestrators
(`yquoter/datasource.py`: `register_source`, `get_stock_history`, `get_stock_realtime`),
and proves the testable properties of the specification against it.

Modelling conventions:
- pandas DataFrames are tables of string-valued cells (`DataFrame`);
- the filesystem is a pure value (`FS`) mapping paths to file contents with
  modification times; `locked` paths make `os.remove` raise, `unwritable`
  paths make `DataFrame.to_csv` raise; a logical clock provides fresh mtimes;
- Python exceptions become `Except` / explicit error values (`Err`);
- logging and console warnings are side-effect free and omitted.
-/

namespace Yquoter

/-- ASCII lower-casing of a character (Python `str.lower` restricted to the
ASCII range used by market/source/frequency names). -/
def lowerChar (c : Char) : Char :=
  if ('A') ≤ c ∧ c ≤ ('Z') then Char.ofNat (c.toNat + 32) else c

/-- `s.lower()` at the character-list level. -/
def lowerStr (s : String) : String := String.mk (s.data.map lowerChar)

/-- ASCII whitespace test for `str.strip`. -/
def isWs (c : Char) : Bool := c = (' ') || c = ('\t') || c = ('\n') || c = ('\r')

/-- `s.strip()` at the character-list level. -/
def stripStr (s : String) : String :=
  String.mk (((s.data.dropWhile isWs).reverse.dropWhile isWs).reverse)

/-- Association-list lookup with string keys (Python `dict` read access). -/
def lookupStr {α : Type} : List (String × α) → String → Option α
  | [], _ => none
  | (k, v) :: rest, key => if k = key then some v else lookupStr rest key

/-- Python `dict` assignment `d[k] = v`: replace in place when the key is
present, append otherwise (insertion order preserved). -/
def dictSet {α : Type} : List (String × α) → String → α → List (String × α)
  | [], k, v => [(k, v)]
  | (k0, v0) :: rest, k, v =>
      if k0 = k then (k, v) :: rest else (k0, v0) :: dictSet rest k v

/-- The error taxonomy of `yquoter/exceptions.py`, restricted to the members
raised by the embedded code. -/
inductive Err where
  | dateFormat (msg : String)
  | parameter (msg : String)
  | dataSource (msg : String)
  | dataFetch (msg : String)
  | dataFormat (missing : List String)
  | cacheSave (path : String)
  | valueError
deriving DecidableEq

/-- Model of a pandas DataFrame: an ordered list of column names and rows of
string-valued cells. -/
structure DataFrame where
  cols : List String
  rows : List (List String)
deriving DecidableEq

/-- pandas `df.empty`: true when an axis has length zero. -/
def DataFrame.empty (df : DataFrame) : Bool :=
  df.rows.isEmpty || df.cols.isEmpty

/-- One CSV line: the cells joined by commas. -/
def lineOf (cells : List String) : List Char :=
  List.intercalate [(',')] (cells.map String.data)

/-- `df.to_csv(path, index=False)` payload: header line then one line per row,
comma separated; every line is terminated by a newline. -/
def toCsvLines (df : DataFrame) : List (List Char) :=
  (df.cols :: df.rows).map lineOf

/-- Serialized CSV content of a frame (with the trailing newline written
as an extra empty line so that `intercalate` produces it). -/
def toCsv (df : DataFrame) : List Char :=
  List.intercalate [('\n')] (toCsvLines df ++ [[]])

/-- `pd.read_csv`: split on newlines (blank lines are skipped, as with the
default `skip_blank_lines=True`), first line is the header, remaining lines
are rows; a row with a field count differing from the header is a parse
error (`none`). -/
def fromCsv (content : List Char) : Option DataFrame :=
  match (content.splitOn ('\n')).filter (fun l => !l.isEmpty) with
  | [] => none
  | header :: body =>
      let cols := (header.splitOn (',')).map String.mk
      let rows := body.map (fun l => (l.splitOn (',')).map String.mk)
      if rows.all (fun r => r.length = cols.length) then
        some ⟨cols, rows⟩
      else none

/-- A file on disk: path, CSV content, last-modification time. -/
structure FileEntry where
  path : String
  content : List Char
  mtime : Nat
deriving DecidableEq

/-- The filesystem model. `locked` paths are those on which `os.remove`
raises (e.g. a permission error); `unwritable` paths are those on which
`DataFrame.to_csv` raises. -/
structure FS where
  files : List FileEntry
  locked : List String
  unwritable : List String
deriving DecidableEq

/-- First file entry at `path`, if any. -/
def FS.lookup (fs : FS) (path : String) : Option FileEntry :=
  fs.files.find? (fun fe => fe.path == path)

/-- `os.path.exists` / `os.path.isfile`. -/
def FS.hasFile (fs : FS) (path : String) : Bool := (fs.lookup path).isSome

/-- `os.path.getmtime` (0 for a missing file; callers only use it on
existing files). -/
def FS.mtimeOf (fs : FS) (path : String) : Nat :=
  match fs.lookup path with
  | some fe => fe.mtime
  | none => 0

/-- `df.to_csv(path)`: fails on unwritable paths, otherwise overwrites or
creates the file with the given modification time. -/
def FS.write (fs : FS) (path : String) (content : List Char) (mtime : Nat) : Option FS :=
  if path ∈ fs.unwritable then none
  else
    let files :=
      if fs.hasFile path then
        fs.files.map (fun fe => if fe.path == path then ⟨path, content, mtime⟩ else fe)
      else fs.files ++ [⟨path, content, mtime⟩]
    some { fs with files := files }

/-- `os.remove` (the success case). -/
def FS.removeFile (fs : FS) (path : String) : FS :=
  { fs with files := fs.files.filter (fun fe => fe.path != path) }

/-- Ordering of `_cache_file_list` entries: `list.sort(key=lambda x: x[0])`
compares the modification times. -/
def mtimeLe (a b : Nat × String) : Prop := a.1 ≤ b.1

instance : DecidableRel mtimeLe := fun a b => Nat.decLe a.1 b.1

instance : IsTotal (Nat × String) mtimeLe := ⟨fun a b => Nat.le_total a.1 b.1⟩

instance : IsTrans (Nat × String) mtimeLe := ⟨fun _ _ _ hab hbc => Nat.le_trans hab hbc⟩

/-- `_cache_file_list.sort(key=lambda x: x[0])`: a stable sort by mtime,
matching Python list.sort. -/
def sortByMtime (l : List (Nat × String)) : List (Nat × String) :=
  List.insertionSort mtimeLe l

/-- The mutable state of the cache module (`yquoter/cache.py` globals plus
the `yquoter/config.py` most-recently-cached-path pointer). `evictedLog`
records every entry popped by `_cleanup_old_cache` (bookkeeping used to
state eviction properties); `clock` is the logical time stamped onto
written files. -/
structure CacheState where
  fs : FS
  cacheFileList : List (Nat × String)
  maxEntries : Nat
  dfCachePath : String
  evictedLog : List (Nat × String)
  clock : Nat
deriving DecidableEq

/-- `config.modify_df_path(path)`. -/
def modify_df_path (st : CacheState) (path : String) : CacheState :=
  { st with dfCachePath := path }

/-- `cache.cache_exists(path)`. -/
def cache_exists (fs : FS) (path : String) : Bool := fs.hasFile path

/-- `cache.load_cache(path)`: `None` when the file is missing, unreadable,
or parses to an empty frame; the frame otherwise. -/
def load_cache (fs : FS) (path : String) : Option DataFrame :=
  if cache_exists fs path = false then none
  else
    match fs.lookup path with
    | none => none
    | some fe =>
        match fromCsv fe.content with
        | none => none
        | some df => if df.empty then none else some df

/-- The update-or-append loop of `_add_cache_file`: the first tracked entry
with the same path has its mtime refreshed; when none matches, the entry is
appended (the `for ... else` clause). -/
def updateEntry : List (Nat × String) → Nat → String → List (Nat × String)
  | [], mtime, path => [(mtime, path)]
  | (m, p) :: rest, mtime, path =>
      if p = path then (mtime, path) :: rest
      else (m, p) :: updateEntry rest mtime path

/-- The deletion loop of `_cleanup_old_cache`: pop the oldest tracked entry
`n` times; each popped file is deleted when present, a missing file is merely
logged, and a failing deletion (`locked` path) is logged and skipped while
the loop continues. Returns the filesystem, the surviving list and the
eviction log. -/
def evictLoop : Nat → FS → List (Nat × String) → List (Nat × String) →
    FS × List (Nat × String) × List (Nat × String)
  | 0, fs, l, log => (fs, l, log)
  | _ + 1, fs, [], log => (fs, [], log)
  | n + 1, fs, (m, p) :: rest, log =>
      let fs' :=
        if fs.hasFile p then
          if p ∈ fs.locked then fs else fs.removeFile p
        else fs
      evictLoop n fs' rest ((m, p) :: log)

/-- `cache._cleanup_old_cache()`. -/
def cleanup_old_cache (st : CacheState) : CacheState :=
  if st.cacheFileList.length ≤ st.maxEntries then st
  else
    let n := st.cacheFileList.length - st.maxEntries
    let r := evictLoop n st.fs st.cacheFileList st.evictedLog
    { st with fs := r.1, cacheFileList := r.2.1, evictedLog := r.2.2 }

/-- `cache._add_cache_file(path)`: ignore a path that does not exist on
disk; otherwise refresh or append its entry, re-sort by mtime and run the
cleanup pass. -/
def _add_cache_file (st : CacheState) (path : String) : CacheState :=
  if st.fs.hasFile path = false then st
  else
    let mtime := st.fs.mtimeOf path
    let l := sortByMtime (updateEntry st.cacheFileList mtime path)
    cleanup_old_cache { st with cacheFileList := l }

/-- `cache.save_cache(path, df)`: write the CSV (raising `CacheSaveError`
when the write fails — in the source, `modify_df_path` and `_add_cache_file`
run strictly after `to_csv` inside the `try`, so a failed write leaves both
untouched), then update the most-recently-cached-path pointer and the
tracked list. The written file is stamped with the current clock. -/
def save_cache (st : CacheState) (path : String) (df : DataFrame) :
    Option Err × CacheState :=
  match st.fs.write path (toCsv df) st.clock with
  | none => (some (Err.cacheSave path), st)
  | some fs' =>
      let st1 := modify_df_path { st with fs := fs', clock := st.clock + 1 } path
      (none, _add_cache_file st1 path)

/-- `cache.set_max_cache_entries(n)`: rejects `n < 1` with a ValueError,
otherwise stores the bound and runs an immediate cleanup pass. -/
def set_max_cache_entries (st : CacheState) (n : Nat) : Option Err × CacheState :=
  if n < 1 then (some Err.valueError, st)
  else (none, cleanup_old_cache { st with maxEntries := n })

/-- `start.replace("-", "")`. -/
def dropDashes (s : String) : String :=
  String.mk (s.data.filter (fun c => c != ('-')))

/-- `cache.get_cache_path(market, code, start, end, klt, fqt)` — the pure
path computation `<root>/<market.lower()>/<code>/<start>_<end>_klt<klt>_fqt<fqt>.csv`
(directory creation, which can only fail with a propagated
`CacheDirectoryError`, does not affect the returned key). -/
def get_cache_path (root market code start endd : String) (klt fqt : Int) : String :=
  root ++ ("/") ++ lowerStr market ++ ("/") ++ code ++ ("/") ++
    dropDashes start ++ ("_") ++ dropDashes endd ++
    ("_klt") ++ toString klt ++ ("_fqt") ++ toString fqt ++ (".csv")

/-! ### `utils.parse_date_str`

`datetime.strptime` compiles each format to a regular expression
(`%Y` ↦ four digits, `%m` ↦ `1[0-2]|0[1-9]|[1-9]`, `%d` ↦
`3[01]|[12]\d|0[1-9]|[1-9]`, `%H` ↦ `2[0-3]|[0-1]\d|\d`, `%M`/`%S` ↦
`[0-5]\d|\d`), takes the first backtracking match, requires the whole string
to be consumed, and finally constructs a `datetime`, which validates the
calendar date (and `MINYEAR = 1`). Because every token lists its longer
alternatives first, the first backtracking match that consumes the whole
string coincides with regex-then-leftover-check semantics, which is how the
candidate lists below are searched. -/

/-- Numeric value of a decimal digit. -/
def digitVal (c : Char) : Nat := c.toNat - (('0')).toNat

/-- `%Y`: exactly four digits. -/
def parseY : List Char → Option (Nat × List Char)
  | a :: b :: c :: d :: rest =>
      if a.isDigit ∧ b.isDigit ∧ c.isDigit ∧ d.isDigit then
        some (((digitVal a * 10 + digitVal b) * 10 + digitVal c) * 10 + digitVal d, rest)
      else none
  | _ => none

/-- `%m` candidates in regex-alternative order: `1[0-2]`, `0[1-9]`, `[1-9]`. -/
def mCands : List Char → List (Nat × List Char)
  | c1 :: c2 :: rest =>
      (if c1 = ('1') ∧ (c2 = ('0') ∨ c2 = ('1') ∨ c2 = ('2')) then
        [(10 + digitVal c2, rest)] else []) ++
      (if c1 = ('0') ∧ (c2.isDigit ∧ c2 ≠ ('0')) then
        [(digitVal c2, rest)] else []) ++
      (if c1.isDigit ∧ c1 ≠ ('0') then [(digitVal c1, c2 :: rest)] else [])
  | [c1] => if c1.isDigit ∧ c1 ≠ ('0') then [(digitVal c1, [])] else []
  | [] => []

/-- `%d` candidates in regex-alternative order: `3[01]`, `[12]\d`, `0[1-9]`,
`[1-9]`. -/
def dCands : List Char → List (Nat × List Char)
  | c1 :: c2 :: rest =>
      (if c1 = ('3') ∧ (c2 = ('0') ∨ c2 = ('1')) then
        [(30 + digitVal c2, rest)] else []) ++
      (if (c1 = ('1') ∨ c1 = ('2')) ∧ c2.isDigit then
        [(digitVal c1 * 10 + digitVal c2, rest)] else []) ++
      (if c1 = ('0') ∧ (c2.isDigit ∧ c2 ≠ ('0')) then
        [(digitVal c2, rest)] else []) ++
      (if c1.isDigit ∧ c1 ≠ ('0') then [(digitVal c1, c2 :: rest)] else [])
  | [c1] => if c1.isDigit ∧ c1 ≠ ('0') then [(digitVal c1, [])] else []
  | [] => []

/-- `%H` candidates: `2[0-3]`, `[0-1]\d`, `\d`. -/
def hCands : List Char → List (Nat × List Char)
  | c1 :: c2 :: rest =>
      (if c1 = ('2') ∧ (c2 = ('0') ∨ c2 = ('1') ∨ c2 = ('2') ∨ c2 = ('3')) then
        [(20 + digitVal c2, rest)] else []) ++
      (if (c1 = ('0') ∨ c1 = ('1')) ∧ c2.isDigit then
        [(digitVal c1 * 10 + digitVal c2, rest)] else []) ++
      (if c1.isDigit then [(digitVal c1, c2 :: rest)] else [])
  | [c1] => if c1.isDigit then [(digitVal c1, [])] else []
  | [] => []

/-- `%M` / `%S` candidates: `[0-5]\d`, `\d`. -/
def msCands : List Char → List (Nat × List Char)
  | c1 :: c2 :: rest =>
      (if (c1.isDigit ∧ digitVal c1 ≤ 5) ∧ c2.isDigit then
        [(digitVal c1 * 10 + digitVal c2, rest)] else []) ++
      (if c1.isDigit then [(digitVal c1, c2 :: rest)] else [])
  | [c1] => if c1.isDigit then [(digitVal c1, [])] else []
  | [] => []

/-- Gregorian leap year. -/
def isLeap (y : Nat) : Bool := (y % 4 = 0 ∧ y % 100 ≠ 0) ∨ y % 400 = 0

/-- Days in a month. -/
def daysInMonth (y m : Nat) : Nat :=
  if m = 2 then (if isLeap y then 29 else 28)
  else if m = 4 ∨ m = 6 ∨ m = 9 ∨ m = 11 then 30 else 31

/-- The validation performed by the `datetime(y, m, d)` constructor
(`MINYEAR = 1`, `MAXYEAR = 9999`; the month range is already enforced by the
`%m` pattern). -/
def validDate (y m d : Nat) : Bool :=
  decide (1 ≤ y ∧ y ≤ 9999 ∧ 1 ≤ m ∧ m ≤ 12 ∧ 1 ≤ d ∧ d ≤ daysInMonth y m)

/-- A literal separator character in a format. -/
def expectChar (sep : Char) : List Char → Option (List Char)
  | c :: rest => if c = sep then some rest else none
  | [] => none

/-- `%Y<sep>%m<sep>%d`: first whole-string regex match, then calendar
validation. -/
def parseSepYmd (sep : Char) (cs : List Char) : Option (Nat × Nat × Nat) :=
  match parseY cs with
  | none => none
  | some (y, r1) =>
      match expectChar sep r1 with
      | none => none
      | some r2 =>
          let found := (mCands r2).findSome? (fun mc =>
            match expectChar sep mc.2 with
            | none => none
            | some r3 =>
                (dCands r3).findSome? (fun dc =>
                  if dc.2 = ([] : List Char) then some (mc.1, dc.1) else none))
          match found with
          | none => none
          | some (m, d) => if validDate y m d then some (y, m, d) else none

/-- `%Y%m%d`: first whole-string regex match, then calendar validation. -/
def parseCompactYmd (cs : List Char) : Option (Nat × Nat × Nat) :=
  match parseY cs with
  | none => none
  | some (y, r1) =>
      let found := (mCands r1).findSome? (fun mc =>
        (dCands mc.2).findSome? (fun dc =>
          if dc.2 = ([] : List Char) then some (mc.1, dc.1) else none))
      match found with
      | none => none
      | some (m, d) => if validDate y m d then some (y, m, d) else none

/-- `%Y-%m-%d %H:%M:%S`: the time-of-day patterns only produce values the
`datetime` constructor accepts, so only the calendar date is validated. -/
def parseDatetimeYmd (cs : List Char) : Option (Nat × Nat × Nat) :=
  match parseY cs with
  | none => none
  | some (y, r1) =>
      match expectChar ('-') r1 with
      | none => none
      | some r2 =>
          let found := (mCands r2).findSome? (fun mc =>
            match expectChar ('-') mc.2 with
            | none => none
            | some r3 =>
                (dCands r3).findSome? (fun dc =>
                  match expectChar (' ') dc.2 with
                  | none => none
                  | some r4 =>
                      (hCands r4).findSome? (fun hc =>
                        match expectChar (':') hc.2 with
                        | none => none
                        | some r5 =>
                            (msCands r5).findSome? (fun mic =>
                              match expectChar (':') mic.2 with
                              | none => none
                              | some r6 =>
                                  (msCands r6).findSome? (fun sc =>
                                    if sc.2 = ([] : List Char) then
                                      some (mc.1, dc.1) else none)))))
          match found with
          | none => none
          | some (m, d) => if validDate y m d then some (y, m, d) else none

/-- Zero-pad to two digits (`strftime` `%m` / `%d`). -/
def pad2 (n : Nat) : String := if n < 10 then ("0") ++ toString n else toString n

/-- Zero-pad to four digits (`strftime` `%Y`). -/
def pad4 (n : Nat) : String :=
  if n < 10 then ("000") ++ toString n
  else if n < 100 then ("00") ++ toString n
  else if n < 1000 then ("0") ++ toString n
  else toString n

/-- `dt.strftime("%Y%m%d")`. -/
def fmtYmd (y m d : Nat) : String := pad4 y ++ pad2 m ++ pad2 d

/-- `utils.parse_date_str(date_str)` with the default output format
`"%Y%m%d"`: strip the input, try the formats `%Y-%m-%d`, `%Y/%m/%d`,
`%Y%m%d`, `%Y-%m-%d %H:%M:%S` in order, and raise `DateFormatError` when
none matches. -/
def parse_date_str (s : String) : Except Err String :=
  let cs := (stripStr s).data
  match parseSepYmd ('-') cs with
  | some (y, m, d) => Except.ok (fmtYmd y m d)
  | none =>
  match parseSepYmd ('/') cs with
  | some (y, m, d) => Except.ok (fmtYmd y m d)
  | none =>
  match parseCompactYmd cs with
  | some (y, m, d) => Except.ok (fmtYmd y m d)
  | none =>
  match parseDatetimeYmd cs with
  | some (y, m, d) => Except.ok (fmtYmd y m d)
  | none => Except.error (Err.dateFormat s)

/-! ### `datasource.py` -/

/-- `_SOURCE_REGISTRY`: a mapping from source name to a capability map from
function type to fetch function, modelled as insertion-ordered association
lists (Python `dict`). The fetch-function type is a parameter: the
argument-filtering dispatch (`inspect.signature`) is modelled by letting
every registered function take the full unified parameter record and ignore
the parts it does not declare. -/
def Registry (F : Type) : Type := List (String × List (String × F))

/-- `datasource.register_source(source_name, func_type, func)` (the direct,
non-decorator call): lower-case both names, create the per-source map when
absent, and upsert the function under the function type. -/
def register_source {F : Type} (reg : Registry F) (source_name func_type : String)
    (f : F) : Registry F :=
  let n := lowerStr source_name
  let t := lowerStr func_type
  match lookupStr reg n with
  | none => dictSet reg n [(t, f)]
  | some m => dictSet reg n (dictSet m t f)

/-- Resolution of a (source, func_type) pair against the registry. -/
def resolveFn {F : Type} (reg : Registry F) (src t : String) : Option F :=
  match lookupStr reg src with
  | none => none
  | some m => lookupStr m t

/-- `FREQ_TO_KLT`. -/
def FREQ_TO_KLT : List (String × Int) :=
  [("daily", 1), ("day", 1), ("d", 1),
   ("weekly", 2), ("week", 2), ("w", 2),
   ("monthly", 3), ("month", 3), ("m", 3),
   ("1min", 101), ("1m", 101),
   ("5min", 102), ("5m", 102),
   ("15min", 103), ("15m", 103),
   ("30min", 104), ("30m", 104),
   ("60min", 105), ("60m", 105), ("1h", 105)]

/-- The message of the `DataSourceError` raised for a selected but
unregistered TuShare source (quotes of the original f-string dropped). -/
def tushareNotEnabledMsg : String :=
  "TuShare data source not enabled. Please initialize and register TuShare first with yquoter.init_tushare(token), or use source=spider instead."

/-- The message of the `DataSourceError` raised for an unknown source name:
`f"Unknown data source: {src}; available sources: {list(_SOURCE_REGISTRY)}"`. -/
def unknownSourceMsg {F : Type} (reg : Registry F) (src : String) : String :=
  "Unknown data source: " ++ src ++ ("; available sources: ") ++
    String.intercalate (", ") (reg.map Prod.fst)

/-- `f"Data source '{src}' does not support '{func_type}' data."` -/
def noSupportMsg (src func_type : String) : String :=
  "Data source " ++ src ++ (" does not support ") ++ func_type ++ (" data.")

/-- `f"Failed to fetch data from source '{src}'"`. -/
def fetchFailMsg (src : String) : String :=
  "Failed to fetch data from source " ++ src

/-- `f"Unknown frequency: {freq}; available values: ..."`. -/
def unknownFreqMsg (freq : String) : String :=
  "Unknown frequency: " ++ freq

/-- Required columns of the basic field set (spec §3, StandardTable). -/
def REQUIRED_BASIC : List String :=
  ["date", "open", "high", "low", "close", "volume", "amount"]

/-- Required columns of the full field set (spec §3). -/
def REQUIRED_FULL : List String :=
  REQUIRED_BASIC ++ ["change%", "turnover%", "change", "amplitude%"]

/-- Required columns for a history field-set name. -/
def requiredCols (fields : String) : List String :=
  if fields = "full" then REQUIRED_FULL else REQUIRED_BASIC

/-- Projection of a frame to the given columns in the given order (missing
lookups cannot occur at call sites, which validate first). -/
def projectDf (df : DataFrame) (req : List String) : DataFrame :=
  ⟨req, df.rows.map (fun r => req.map (fun c =>
    match df.cols.indexOf? c with
    | some i => r.getD i ("")
    | none => ("")))⟩

/-- Validation core: raise a `DataFormatError` naming the required columns
that are absent from the frame, otherwise project to exactly the required
columns in order. -/
def validateAgainst (df : DataFrame) (req : List String) : Except Err DataFrame :=
  if (req.filter (fun c => !df.cols.contains c)).isEmpty then
    Except.ok (projectDf df req)
  else Except.error (Err.dataFormat (req.filter (fun c => !df.cols.contains c)))

/-- Modelled from the spec: `_validate_dataframe` is imported from
`yquoter.utils` in `datasource.py` but its definition is not in the sources;
per spec §4.5 step 7 it validates the table against the required-columns
list for the requested field set, raises a `DataFormatError` naming the
missing columns when any are absent, and otherwise projects to exactly
those columns in canonical order. -/
def _validate_dataframe (df : DataFrame) (fields : String) : Except Err DataFrame :=
  validateAgainst df (requiredCols fields)

/-- The unified parameter record handed to a history provider function
(the `params` dict of `get_stock_history`, after argument filtering). -/
structure HistParams where
  market : String
  code : String
  start : String
  endd : String
  freq : Option String
  klt : Int
  fqt : Int
  fields : String
deriving DecidableEq

/-- A registered history fetch function: returns a frame or raises some
exception. -/
def HistFn : Type := HistParams → Except Unit DataFrame

instance {ε α : Type} [DecidableEq ε] [DecidableEq α] : DecidableEq (Except ε α) :=
  fun x y =>
    match x, y with
    | Except.ok a, Except.ok b =>
        if h : a = b then isTrue (by rw [h])
        else isFalse (fun hh => h (Except.ok.inj hh))
    | Except.error a, Except.error b =>
        if h : a = b then isTrue (by rw [h])
        else isFalse (fun hh => h (Except.error.inj hh))
    | Except.ok _, Except.error _ => isFalse (fun hh => Except.noConfusion hh)
    | Except.error _, Except.ok _ => isFalse (fun hh => Except.noConfusion hh)

/-- The observable outcome of one `get_stock_history` call: the returned
frame or raised error, the final module state, and the number of provider
invocations made. -/
structure HistOutcome where
  res : Except Err DataFrame
  state : CacheState
  calls : Nat
deriving DecidableEq

/-- Lines 156–161 of `datasource.py`: when `freq` is given (and truthy),
lower-case it and override `klt` via `FREQ_TO_KLT`, raising a
`ParameterError` on an unknown frequency. -/
def resolveKlt (freq : Option String) (klt : Int) : Except Err (Option String × Int) :=
  match freq with
  | none => Except.ok (none, klt)
  | some f =>
      if f = "" then Except.ok (some f, klt)
      else
        let f := lowerStr f
        match lookupStr FREQ_TO_KLT f with
        | none => Except.error (Err.parameter (unknownFreqMsg f))
        | some k => Except.ok (some f, k)

/-- The cache-miss tail of `get_stock_history` (steps 2–4 of its cache and
fetch logic): resolve the `history` capability, invoke the provider
(re-raising any exception as `DataFetchError`), persist a non-empty result
via `save_cache` (propagating `CacheSaveError`) followed by
`modify_df_path`, and validate the frame. -/
def history_fetch (caps : List (String × HistFn)) (src : String) (st : CacheState)
    (cachePath : String) (p : HistParams) : HistOutcome :=
  match lookupStr caps ("history") with
  | none => ⟨Except.error (Err.dataSource (noSupportMsg src ("history"))), st, 0⟩
  | some f =>
      match f p with
      | Except.error _ => ⟨Except.error (Err.dataFetch (fetchFailMsg src)), st, 1⟩
      | Except.ok df =>
          if df.empty then ⟨_validate_dataframe df p.fields, st, 1⟩
          else
            match save_cache st cachePath df with
            | (some e, st1) => ⟨Except.error e, st1, 1⟩
            | (none, st1) =>
                ⟨_validate_dataframe df p.fields, modify_df_path st1 cachePath, 1⟩

/-- `datasource.get_stock_history(market, code, start, end, source, freq,
klt, fqt, fields)`: normalize the market, parse the dates, resolve the
source (with the TuShare-specific `DataSourceError` before the generic
one), map `freq` to `klt`, compute the cache path, return a validated
non-empty cache hit without touching the provider, and otherwise fetch,
persist and validate. -/
def get_stock_history (reg : Registry HistFn) (defaultSource : String)
    (cacheRoot : String) (st : CacheState) (market code start endd : String)
    (source freq : Option String) (klt fqt : Int) (fields : String) : HistOutcome :=
  let market := lowerStr market
  match parse_date_str start with
  | Except.error e => ⟨Except.error e, st, 0⟩
  | Except.ok start =>
  match parse_date_str endd with
  | Except.error e => ⟨Except.error e, st, 0⟩
  | Except.ok endd =>
  let src := lowerStr (source.getD defaultSource)
  if src = "tushare" ∧ (lookupStr reg ("tushare")).isNone = true then
    ⟨Except.error (Err.dataSource tushareNotEnabledMsg), st, 0⟩
  else
  match lookupStr reg src with
  | none => ⟨Except.error (Err.dataSource (unknownSourceMsg reg src)), st, 0⟩
  | some caps =>
  match resolveKlt freq klt with
  | Except.error e => ⟨Except.error e, st, 0⟩
  | Except.ok (freq, klt) =>
  let cachePath := get_cache_path cacheRoot market code start endd klt fqt
  let p : HistParams := ⟨market, code, start, endd, freq, klt, fqt, fields⟩
  if cache_exists st.fs cachePath then
    match load_cache st.fs cachePath with
    | some dfc =>
        if dfc.empty = false then
          ⟨_validate_dataframe dfc fields, modify_df_path st cachePath, 0⟩
        else history_fetch caps src st cachePath p
    | none => history_fetch caps src st cachePath p
  else history_fetch caps src st cachePath p

/-! ### `datasource.get_stock_realtime` -/

/-- The unified parameter record handed to a realtime provider function:
the TuShare iterate path supplies a single `code`, the batch path supplies
the full `codes` list (argument filtering selects whichever the function
declares). -/
structure RtParams where
  market : String
  code : Option String
  codes : Option (List String)
  fields : List String
deriving DecidableEq

/-- A registered realtime fetch function. -/
def RtFn : Type := RtParams → Except Unit DataFrame

/-- The observable outcome of one `get_stock_realtime` call: the returned
frame or raised error and the number of provider invocations made. -/
structure RtOutcome where
  res : Except Err DataFrame
  calls : Nat
deriving DecidableEq

/-- Modelled from the spec: the realtime call sites pass a field *list* to
`_validate_dataframe` (absent from the sources); per spec §4.5 the default
field set is applied when none is requested and the identifying `code`
column is always included. -/
def _validate_dataframe_rt (df : DataFrame) (fields : List String) : Except Err DataFrame :=
  validateAgainst df
    (if fields.isEmpty then ("code") :: REQUIRED_BASIC else ("code") :: fields)

/-- `pd.concat(all_results, ignore_index=True)` over frames sharing one
column set (the shape produced by a single provider). -/
def concatDfs : List DataFrame → DataFrame
  | [] => ⟨[], []⟩
  | d :: rest => ⟨d.cols, d.rows ++ (rest.map DataFrame.rows).flatten⟩

/-- The TuShare iterate path of `get_stock_realtime`: call the single-code
function once per code in order; an empty result is logged and dropped, a
raised exception is logged and skipped so the remaining codes are still
fetched. Returns the collected non-empty frames and the number of provider
invocations. -/
def rt_iterate (f : RtFn) (market : String) (fields : List String) :
    List String → List DataFrame × Nat
  | [] => ([], 0)
  | c :: rest =>
      let head :=
        match f ⟨market, some c, none, fields⟩ with
        | Except.ok df => if df.empty then [] else [df]
        | Except.error _ => []
      let t := rt_iterate f market fields rest
      (head ++ t.1, t.2 + 1)

/-- `datasource.get_stock_realtime(market, codes, fields, source)`:
resolve the source as in the history path; TuShare iterates codes
one-by-one with per-code failures skipped, any other source makes a single
batch call whose failure is fatal (`DataFetchError`); results are
concatenated and validated, and an all-empty outcome validates an empty
frame. -/
def get_stock_realtime (reg : Registry RtFn) (defaultSource : String)
    (market : String) (codes : List String) (fields : List String)
    (source : Option String) : RtOutcome :=
  let market := lowerStr market
  let src := lowerStr (source.getD defaultSource)
  if src = "tushare" ∧ (lookupStr reg ("tushare")).isNone = true then
    ⟨Except.error (Err.dataSource tushareNotEnabledMsg), 0⟩
  else
  match lookupStr reg src with
  | none => ⟨Except.error (Err.dataSource (unknownSourceMsg reg src)), 0⟩
  | some caps =>
  match lookupStr caps ("realtime") with
  | none => ⟨Except.error (Err.dataSource (noSupportMsg src ("realtime"))), 0⟩
  | some f =>
  if src = "tushare" then
    let r := rt_iterate f market fields codes
    if r.1.isEmpty then ⟨_validate_dataframe_rt ⟨[], []⟩ fields, r.2⟩
    else ⟨_validate_dataframe_rt (concatDfs r.1) fields, r.2⟩
  else
    match f ⟨market, none, some codes, fields⟩ with
    | Except.error _ => ⟨Except.error (Err.dataFetch (fetchFailMsg src)), 1⟩
    | Except.ok df =>
        if df.empty then ⟨_validate_dataframe_rt ⟨[], []⟩ fields, 1⟩
        else ⟨_validate_dataframe_rt df fields, 1⟩

/-! ### Association-list lemmas -/

theorem lookupStr_dictSet {α : Type} (l : List (String × α)) (k : String) (v : α) :
    lookupStr (dictSet l k v) k = some v := by
  induction l with
  | nil => simp [dictSet, lookupStr]
  | cons h t ih =>
      obtain ⟨k0, v0⟩ := h
      by_cases hk : k0 = k
      · subst hk
        simp [dictSet, lookupStr]
      · simp [dictSet, lookupStr, hk, ih]

theorem dictSet_dictSet {α : Type} (l : List (String × α)) (k : String) (v w : α) :
    dictSet (dictSet l k v) k w = dictSet l k w := by
  induction l with
  | nil => simp [dictSet]
  | cons h t ih =>
      obtain ⟨k0, v0⟩ := h
      by_cases hk : k0 = k
      · subst hk
        simp [dictSet]
      · simp [dictSet, hk, ih]

/-- C9: Registration is a case-insensitive upsert with last-write-wins
semantics: registering the same function twice is idempotent, registering a
second function under the same (name, capability) pair leaves the later one
resolvable, and names differing only in case produce the same registry. -/
theorem registration_upsert {F : Type} (reg : Registry F) (n1 n2 t : String)
    (f g : F) (hcase : lowerStr n1 = lowerStr n2) :
    register_source (register_source reg n1 t f) n1 t f = register_source reg n1 t f ∧
    resolveFn (register_source (register_source reg n1 t f) n1 t g)
      (lowerStr n1) (lowerStr t) = some g ∧
    register_source reg n1 t f = register_source reg n2 t f := by
  refine ⟨?_, ?_, ?_⟩
  · unfold register_source
    cases hl : lookupStr reg (lowerStr n1) with
    | none =>
        simp only [hl, lookupStr_dictSet, dictSet_dictSet]
        simp [dictSet]
    | some m =>
        simp only [hl, lookupStr_dictSet, dictSet_dictSet]
  · unfold register_source resolveFn
    cases hl : lookupStr reg (lowerStr n1) with
    | none => simp only [hl, lookupStr_dictSet, dictSet_dictSet]
    | some m => simp only [hl, lookupStr_dictSet, dictSet_dictSet]
  · unfold register_source
    rw [hcase]

/-- C9 witness: the registry algebra at concrete inputs. -/
theorem registration_upsert_witness :
    register_source (register_source ([] : Registry Nat) ("TuShare") ("history") 1)
        ("TuShare") ("history") 1 =
      register_source ([] : Registry Nat) ("TuShare") ("history") 1 ∧
    resolveFn (register_source (register_source ([] : Registry Nat) ("TuShare") ("history") 1)
        ("TuShare") ("history") 2) (lowerStr ("TuShare")) (lowerStr ("history")) = some 2 ∧
    register_source ([] : Registry Nat) ("TuShare") ("history") 1 =
      register_source ([] : Registry Nat) ("tushare") ("history") 1 :=
  registration_upsert ([] : Registry Nat) ("TuShare") ("tushare") ("history") 1 2 (by decide)

/-! ### C7: unregistered source -/

theorem data_append : ∀ (a b : String), (a ++ b).data = a.data ++ b.data
  | ⟨_⟩, ⟨_⟩ => rfl

/-- The TuShare-specific message and the generic unknown-source message are
distinct for every registry and source name. -/
theorem tushare_msg_ne {F : Type} (reg : Registry F) (src : String) :
    tushareNotEnabledMsg ≠ unknownSourceMsg reg src := by
  intro h
  have h2 := congrArg (fun s : String => s.data.head?) h
  have hR : (unknownSourceMsg reg src).data.head? = some ('U') := by
    unfold unknownSourceMsg
    rw [data_append, data_append, data_append]
    rfl
  simp only at h2
  rw [hR] at h2
  have h3 : ('T') = ('U') := Option.some.inj h2
  exact absurd h3 (by decide)

/-- C7: calling `get_stock_history` with an unregistered source name raises
a `DataSourceError` before any filesystem access or provider invocation
(the state is returned unchanged with zero provider calls, and the
cache-path computation with its directory creation is never reached), and
the message distinguishes the known-but-uninitialized `tushare` provider
from a never-registered name. -/
theorem unregistered_source_rejected (reg : Registry HistFn)
    (defaultSource cacheRoot : String) (st : CacheState)
    (market code start endd name : String) (freq : Option String)
    (klt fqt : Int) (fields : String) (s8 e8 : String)
    (hs : parse_date_str start = Except.ok s8)
    (he : parse_date_str endd = Except.ok e8)
    (hun : lookupStr reg (lowerStr name) = none) :
    get_stock_history reg defaultSource cacheRoot st market code start endd
        (some name) freq klt fqt fields =
      ⟨Except.error (Err.dataSource (if lowerStr name = "tushare" then tushareNotEnabledMsg
          else unknownSourceMsg reg (lowerStr name))), st, 0⟩ ∧
    tushareNotEnabledMsg ≠ unknownSourceMsg reg (lowerStr name) := by
  refine ⟨?_, tushare_msg_ne reg (lowerStr name)⟩
  unfold get_stock_history
  rw [hs, he]
  simp only [Option.getD_some]
  by_cases ht : lowerStr name = "tushare"
  · rw [ht] at hun ⊢
    simp [hun]
  · simp [ht, hun]

/-- C7 witness: a concrete unregistered source is rejected with the generic
message, which differs from the TuShare-specific one. -/
theorem unregistered_source_rejected_witness :
    get_stock_history ([] : Registry HistFn) ("spider") (".cache")
        ⟨⟨[], [], []⟩, [], 100, "", [], 0⟩ ("cn") ("600519") ("2024-10-02") ("2024-10-12")
        (some ("nonexistent")) none 101 1 ("basic") =
      ⟨Except.error (Err.dataSource (if lowerStr ("nonexistent") = "tushare"
          then tushareNotEnabledMsg
          else unknownSourceMsg ([] : Registry HistFn) (lowerStr ("nonexistent")))),
        ⟨⟨[], [], []⟩, [], 100, "", [], 0⟩, 0⟩ ∧
    tushareNotEnabledMsg ≠ unknownSourceMsg ([] : Registry HistFn) (lowerStr ("nonexistent")) :=
  unregistered_source_rejected ([] : Registry HistFn) ("spider") (".cache")
    ⟨⟨[], [], []⟩, [], 100, "", [], 0⟩ ("cn") ("600519") ("2024-10-02") ("2024-10-12")
    ("nonexistent") none 101 1 ("basic") ("20241002") ("20241012")
    (by decide) (by decide) rfl

/-! ### C4: cache-key determinism and date-format insensitivity -/

/-- The cache key as derived inside `get_stock_history`: both dates are
normalized by `parse_date_str` before `get_cache_path` builds the path, so
the key is a pure function of the parsed query. -/
def cacheKeyOf (root market code start endd : String) (klt fqt : Int) : Except Err String :=
  match parse_date_str start with
  | Except.error e => Except.error e
  | Except.ok s =>
      match parse_date_str endd with
      | Except.error e => Except.error e
      | Except.ok e => Except.ok (get_cache_path root (lowerStr market) code s e klt fqt)

/-- C4: the cache key is a pure function of the query — computing it twice
yields identical results; queries whose date strings normalize identically
yield the same key; and in particular the dashed and compact spellings of a
date (the specification example pair) yield the same key for every market,
code, resolution and adjustment. -/
theorem cache_key_deterministic (root market code s1 s2 e1 e2 : String)
    (klt fqt : Int)
    (hs : parse_date_str s1 = parse_date_str s2)
    (he : parse_date_str e1 = parse_date_str e2) :
    cacheKeyOf root market code s1 e1 klt fqt = cacheKeyOf root market code s1 e1 klt fqt ∧
    cacheKeyOf root market code s1 e1 klt fqt = cacheKeyOf root market code s2 e2 klt fqt ∧
    cacheKeyOf root market code ("2025-07-09") ("2025-07-09") klt fqt =
      cacheKeyOf root market code ("20250709") ("20250709") klt fqt := by
  refine ⟨rfl, ?_, ?_⟩
  · unfold cacheKeyOf
    rw [hs, he]
  · unfold cacheKeyOf
    rw [show parse_date_str ("2025-07-09") = Except.ok ("20250709") from by decide,
      show parse_date_str ("20250709") = Except.ok ("20250709") from by decide]

/-- C4 witness: dashed, slashed and compact spellings of the same dates give
one key at concrete inputs. -/
theorem cache_key_deterministic_witness :
    cacheKeyOf (".cache") ("CN") ("600519") ("2025/07/09") ("2025-07-10") 101 1 =
      cacheKeyOf (".cache") ("CN") ("600519") ("2025/07/09") ("2025-07-10") 101 1 ∧
    cacheKeyOf (".cache") ("CN") ("600519") ("2025/07/09") ("2025-07-10") 101 1 =
      cacheKeyOf (".cache") ("CN") ("600519") ("20250709") ("20250710") 101 1 ∧
    cacheKeyOf (".cache") ("CN") ("600519") ("2025-07-09") ("2025-07-09") 101 1 =
      cacheKeyOf (".cache") ("CN") ("600519") ("20250709") ("20250709") 101 1 :=
  cache_key_deterministic (".cache") ("CN") ("600519") ("2025/07/09") ("20250709")
    ("2025-07-10") ("20250710") 101 1 (by decide) (by decide)

/-! ### C8: realtime failure handling -/

/-- Whether a result is a raised `DataFetchError`. -/
def isDataFetchErr : Except Err DataFrame → Bool
  | Except.error (Err.dataFetch _) => true
  | _ => false

/-- The iterate path makes exactly one provider call per requested code,
regardless of per-code failures. -/
theorem rt_iterate_calls (f : RtFn) (market : String) (fields : List String) :
    ∀ codes : List String, (rt_iterate f market fields codes).2 = codes.length := by
  intro codes
  induction codes with
  | nil => rfl
  | cons c rest ih => simp [rt_iterate, ih]

/-- Realtime validation raises at most a `DataFormatError`, never a
`DataFetchError`. -/
theorem validate_rt_not_fetch_err (df : DataFrame) (fields : List String) :
    isDataFetchErr (_validate_dataframe_rt df fields) = false := by
  unfold _validate_dataframe_rt validateAgainst
  split <;> split <;> rfl

/-- C8: in realtime retrieval, the TuShare source iterates codes one-by-one
and a per-code failure is skipped, so every remaining code is still fetched
(one provider call per code) and the overall result is never a
`DataFetchError`; a non-TuShare source is called once in batch mode and a
failure of that single call is fatal, raised as a `DataFetchError`. -/
theorem realtime_failure_handling
    (regA : Registry RtFn) (dfltA market : String) (codes fieldsA : List String)
    (capsA : List (String × RtFn)) (f : RtFn)
    (hA1 : lookupStr regA ("tushare") = some capsA)
    (hA2 : lookupStr capsA ("realtime") = some f)
    (regB : Registry RtFn) (dfltB marketB nameB : String)
    (codesB fieldsB : List String)
    (capsB : List (String × RtFn)) (g : RtFn)
    (hB0 : lowerStr nameB ≠ "tushare")
    (hB1 : lookupStr regB (lowerStr nameB) = some capsB)
    (hB2 : lookupStr capsB ("realtime") = some g)
    (hBfail : g ⟨lowerStr marketB, none, some codesB, fieldsB⟩ = Except.error ()) :
    ((get_stock_realtime regA dfltA market codes fieldsA (some ("tushare"))).calls
        = codes.length ∧
      isDataFetchErr
        (get_stock_realtime regA dfltA market codes fieldsA (some ("tushare"))).res = false) ∧
    get_stock_realtime regB dfltB marketB codesB fieldsB (some nameB) =
      ⟨Except.error (Err.dataFetch (fetchFailMsg (lowerStr nameB))), 1⟩ := by
  constructor
  · have htu : lowerStr ("tushare") = "tushare" := by decide
    unfold get_stock_realtime
    simp only [Option.getD_some, htu, hA1, hA2, Option.isNone_some,
      Bool.false_eq_true, and_false, if_false, eq_self_iff_true, if_true]
    constructor
    · split <;> simp [rt_iterate_calls]
    · split <;> exact validate_rt_not_fetch_err _ _
  · have hne : ¬(lowerStr nameB = "tushare" ∧
        (lookupStr regB ("tushare")).isNone = true) := fun hc => hB0 hc.1
    unfold get_stock_realtime
    rw [Option.getD_some, if_neg hne]
    simp only [hB1, hB2, hBfail, if_neg hB0]

/-- A single-code realtime provider that fails on one specific code. -/
def rtFnIter : RtFn := fun p =>
  if p.code = some ("bad") then Except.error ()
  else Except.ok ⟨[("code")], [[("1")]]⟩

/-- A registry exposing `rtFnIter` as the TuShare realtime capability. -/
def rtRegIter : Registry RtFn := [("tushare", [("realtime", rtFnIter)])]

/-- A batch realtime provider that always fails. -/
def rtFnBatch : RtFn := fun _ => Except.error ()

/-- A registry exposing `rtFnBatch` as the spider realtime capability. -/
def rtRegBatch : Registry RtFn := [("spider", [("realtime", rtFnBatch)])]

/-- C8 witness: with one bad code among three, the TuShare iterate path
still makes three provider calls and no `DataFetchError` escapes, while a
failing batch call on the spider path raises `DataFetchError`. -/
theorem realtime_failure_handling_witness :
    ((get_stock_realtime rtRegIter ("spider") ("cn") [("a"), ("bad"), ("b")] []
        (some ("tushare"))).calls = 3 ∧
      isDataFetchErr (get_stock_realtime rtRegIter ("spider") ("cn")
        [("a"), ("bad"), ("b")] [] (some ("tushare"))).res = false) ∧
    get_stock_realtime rtRegBatch ("spider") ("cn") [("a")] [] (some ("SPIDER")) =
      ⟨Except.error (Err.dataFetch (fetchFailMsg (lowerStr ("SPIDER")))), 1⟩ :=
  realtime_failure_handling rtRegIter ("spider") ("cn") [("a"), ("bad"), ("b")] []
    [(("realtime"), rtFnIter)] rtFnIter rfl rfl
    rtRegBatch ("spider") ("cn") ("SPIDER") [("a")] []
    [(("realtime"), rtFnBatch)] rtFnBatch (by decide) rfl rfl rfl

/-! ### Eviction-loop characterization -/

/-- Whether a file survives an eviction pass whose victims have the given
paths: deletions fail on locked paths, and only victims are deleted. -/
def keepB (locked victims : List String) (fe : FileEntry) : Bool :=
  decide (fe.path ∈ locked ∨ fe.path ∉ victims)

theorem keepB_nil (locked : List String) (fe : FileEntry) :
    keepB locked [] fe = true := by
  simp [keepB]

theorem evictLoop_list : ∀ (n : Nat) (fs : FS) (l log : List (Nat × String)),
    (evictLoop n fs l log).2.1 = l.drop n
  | 0, _, l, _ => by simp [evictLoop]
  | _ + 1, _, [], _ => by simp [evictLoop]
  | n + 1, fs, (m, p) :: rest, log => by
      simp only [evictLoop]
      rw [List.drop_succ_cons]
      exact evictLoop_list n _ rest _

theorem evictLoop_log : ∀ (n : Nat) (fs : FS) (l log : List (Nat × String)),
    (evictLoop n fs l log).2.2 = (l.take n).reverse ++ log
  | 0, _, l, _ => by simp [evictLoop]
  | _ + 1, _, [], _ => by simp [evictLoop]
  | n + 1, fs, (m, p) :: rest, log => by
      simp only [evictLoop]
      rw [evictLoop_log n _ rest _, List.take_succ_cons, List.reverse_cons,
        List.append_assoc]
      rfl

theorem evictLoop_locked : ∀ (n : Nat) (fs : FS) (l log : List (Nat × String)),
    (evictLoop n fs l log).1.locked = fs.locked
  | 0, _, _, _ => rfl
  | _ + 1, _, [], _ => rfl
  | n + 1, fs, (m, p) :: rest, log => by
      simp only [evictLoop]
      rw [evictLoop_locked n _ rest _]
      split
      · split <;> rfl
      · rfl

theorem evictLoop_unwritable : ∀ (n : Nat) (fs : FS) (l log : List (Nat × String)),
    (evictLoop n fs l log).1.unwritable = fs.unwritable
  | 0, _, _, _ => rfl
  | _ + 1, _, [], _ => rfl
  | n + 1, fs, (m, p) :: rest, log => by
      simp only [evictLoop]
      rw [evictLoop_unwritable n _ rest _]
      split
      · split <;> rfl
      · rfl

/-- A missing path means no file entry carries it. -/
theorem hasFile_false_path_ne (fs : FS) (p : String) (h : fs.hasFile p = false) :
    ∀ fe ∈ fs.files, fe.path ≠ p := by
  intro fe hfe
  unfold FS.hasFile FS.lookup at h
  cases hfind : List.find? (fun fe => fe.path == p) fs.files with
  | some x => rw [hfind] at h; simp at h
  | none =>
      rw [List.find?_eq_none] at hfind
      simpa using hfind fe hfe

theorem evictLoop_files : ∀ (n : Nat) (fs : FS) (l log : List (Nat × String)),
    (evictLoop n fs l log).1.files =
      fs.files.filter (keepB fs.locked ((l.take n).map Prod.snd))
  | 0, fs, l, log => by
      simp only [evictLoop, List.take_zero, List.map_nil]
      exact (List.filter_eq_self.mpr (fun a _ => keepB_nil _ a)).symm
  | _ + 1, fs, [], log => by
      simp only [evictLoop, List.take_nil, List.map_nil]
      exact (List.filter_eq_self.mpr (fun a _ => keepB_nil _ a)).symm
  | n + 1, fs, (m, p) :: rest, log => by
      simp only [evictLoop, List.take_succ_cons, List.map_cons]
      by_cases hEx : fs.hasFile p
      · by_cases hLock : p ∈ fs.locked
        · rw [if_pos hEx, if_pos hLock, evictLoop_files n fs rest _]
          apply List.filter_congr
          intro fe _
          by_cases hfe : fe.path = p
          · simp [keepB, hfe, hLock]
          · simp [keepB, hfe]
        · rw [if_pos hEx, if_neg hLock, evictLoop_files n (fs.removeFile p) rest _]
          show (fs.files.filter (fun fe => fe.path != p)).filter _ = _
          rw [List.filter_filter]
          apply List.filter_congr
          intro fe _
          have hrl : (fs.removeFile p).locked = fs.locked := rfl
          by_cases hfe : fe.path = p
          · simp [keepB, hfe, hLock, hrl, bne]
          · simp [keepB, hfe, hrl, bne]
      · rw [if_neg hEx, evictLoop_files n fs rest _]
        apply List.filter_congr
        intro fe hfe
        have hne := hasFile_false_path_ne fs p (by simpa using hEx) fe hfe
        simp [keepB, hne]

/-! ### Cleanup characterization -/

theorem cleanup_list (st : CacheState) :
    (cleanup_old_cache st).cacheFileList =
      st.cacheFileList.drop (st.cacheFileList.length - st.maxEntries) := by
  unfold cleanup_old_cache
  split
  · rename_i h
    rw [Nat.sub_eq_zero_of_le h, List.drop_zero]
  · exact evictLoop_list _ _ _ _

theorem cleanup_length (st : CacheState) :
    (cleanup_old_cache st).cacheFileList.length =
      min st.cacheFileList.length st.maxEntries := by
  rw [cleanup_list, List.length_drop]
  omega

theorem cleanup_files (st : CacheState) :
    (cleanup_old_cache st).fs.files = st.fs.files.filter
      (keepB st.fs.locked
        ((st.cacheFileList.take
          (st.cacheFileList.length - st.maxEntries)).map Prod.snd)) := by
  unfold cleanup_old_cache
  split
  · rename_i h
    rw [Nat.sub_eq_zero_of_le h]
    simp only [List.take_zero, List.map_nil]
    exact (List.filter_eq_self.mpr (fun a _ => keepB_nil _ a)).symm
  · exact evictLoop_files _ _ _ _

theorem cleanup_log (st : CacheState) :
    (cleanup_old_cache st).evictedLog =
      (st.cacheFileList.take
        (st.cacheFileList.length - st.maxEntries)).reverse ++ st.evictedLog := by
  unfold cleanup_old_cache
  split
  · rename_i h
    rw [Nat.sub_eq_zero_of_le h]
    simp
  · exact evictLoop_log _ _ _ _

theorem cleanup_maxEntries (st : CacheState) :
    (cleanup_old_cache st).maxEntries = st.maxEntries := by
  unfold cleanup_old_cache
  split <;> rfl

theorem cleanup_clock (st : CacheState) :
    (cleanup_old_cache st).clock = st.clock := by
  unfold cleanup_old_cache
  split <;> rfl

theorem cleanup_dfCachePath (st : CacheState) :
    (cleanup_old_cache st).dfCachePath = st.dfCachePath := by
  unfold cleanup_old_cache
  split <;> rfl

theorem cleanup_locked (st : CacheState) :
    (cleanup_old_cache st).fs.locked = st.fs.locked := by
  unfold cleanup_old_cache
  split
  · rfl
  · exact evictLoop_locked _ _ _ _

theorem cleanup_unwritable (st : CacheState) :
    (cleanup_old_cache st).fs.unwritable = st.fs.unwritable := by
  unfold cleanup_old_cache
  split
  · rfl
  · exact evictLoop_unwritable _ _ _ _

/-- C6: when the tracked entry count exceeds the configured maximum, the
eviction pass pops the oldest entries until exactly the maximum remain (the
retained list is the suffix of newer entries); on disk, exactly the
present, deletable victims disappear — a victim whose file is already
missing or whose deletion fails (a locked path) is tolerated and skipped
while the pass continues, and non-victim files are untouched. -/
theorem eviction_pass_behavior (st : CacheState)
    (hover : st.maxEntries < st.cacheFileList.length) :
    (cleanup_old_cache st).cacheFileList.length = st.maxEntries ∧
    (cleanup_old_cache st).cacheFileList =
      st.cacheFileList.drop (st.cacheFileList.length - st.maxEntries) ∧
    (cleanup_old_cache st).fs.files = st.fs.files.filter
      (keepB st.fs.locked
        ((st.cacheFileList.take
          (st.cacheFileList.length - st.maxEntries)).map Prod.snd)) := by
  refine ⟨?_, cleanup_list st, cleanup_files st⟩
  rw [cleanup_length]
  omega

/-- C6 witness: three tracked entries with a maximum of one; the oldest two
are popped — one file is already missing, one is locked and survives on
disk — and the newest entry with its file remains. -/
theorem eviction_pass_behavior_witness :
    (cleanup_old_cache ⟨⟨[⟨("a"), [], 1⟩, ⟨("b"), [], 2⟩, ⟨("c"), [], 3⟩],
        [("b")], []⟩, [(1, ("a0")), (2, ("b")), (3, ("c"))], 1, "", [], 4⟩).cacheFileList.length = 1 ∧
    (cleanup_old_cache ⟨⟨[⟨("a"), [], 1⟩, ⟨("b"), [], 2⟩, ⟨("c"), [], 3⟩],
        [("b")], []⟩, [(1, ("a0")), (2, ("b")), (3, ("c"))], 1, "", [], 4⟩).cacheFileList =
      [(1, ("a0")), (2, ("b")), (3, ("c"))].drop
        ([(1, ("a0")), (2, ("b")), (3, ("c"))].length - 1) ∧
    (cleanup_old_cache ⟨⟨[⟨("a"), [], 1⟩, ⟨("b"), [], 2⟩, ⟨("c"), [], 3⟩],
        [("b")], []⟩, [(1, ("a0")), (2, ("b")), (3, ("c"))], 1, "", [], 4⟩).fs.files =
      [⟨("a"), [], 1⟩, ⟨("b"), [], 2⟩, ⟨("c"), [], 3⟩].filter
        (keepB [("b")] (([(1, ("a0")), (2, ("b")), (3, ("c"))].take
          ([(1, ("a0")), (2, ("b")), (3, ("c"))].length - 1)).map Prod.snd)) :=
  eviction_pass_behavior
    ⟨⟨[⟨("a"), [], 1⟩, ⟨("b"), [], 2⟩, ⟨("c"), [], 3⟩], [("b")], []⟩,
      [(1, ("a0")), (2, ("b")), (3, ("c"))], 1, "", [], 4⟩ (by decide)

/-! ### Sorting and tracked-list lemmas -/

theorem sortByMtime_sorted (l : List (Nat × String)) :
    (sortByMtime l).Pairwise mtimeLe :=
  List.sorted_insertionSort mtimeLe l

theorem sortByMtime_perm (l : List (Nat × String)) :
    List.Perm (sortByMtime l) l :=
  List.perm_insertionSort mtimeLe l

theorem updateEntry_mem (l : List (Nat × String)) (c : Nat) (path : String) :
    ∀ x ∈ updateEntry l c path, x ∈ l ∨ x = (c, path) := by
  induction l with
  | nil =>
      intro x hx
      simp only [updateEntry, List.mem_singleton] at hx
      exact Or.inr hx
  | cons hd t ih =>
      obtain ⟨m, p⟩ := hd
      intro x hx
      by_cases hp : p = path
      · rw [updateEntry, if_pos hp] at hx
        rcases List.mem_cons.mp hx with h1 | h1
        · exact Or.inr h1
        · exact Or.inl (List.mem_cons_of_mem _ h1)
      · rw [updateEntry, if_neg hp] at hx
        rcases List.mem_cons.mp hx with h1 | h1
        · exact Or.inl (h1 ▸ List.mem_cons_self _ _)
        · rcases ih x h1 with h2 | h2
          · exact Or.inl (List.mem_cons_of_mem _ h2)
          · exact Or.inr h2

theorem pairwise_take_drop {α : Type} {r : α → α → Prop} {l : List α}
    (h : l.Pairwise r) (n : Nat) :
    ∀ x ∈ l.take n, ∀ y ∈ l.drop n, r x y := by
  have h2 : (l.take n ++ l.drop n).Pairwise r := by
    rw [List.take_append_drop]
    exact h
  exact (List.pairwise_append.mp h2).2.2

/-! ### Filesystem-write inversion -/

theorem write_inv {fs : FS} {path : String} {content : List Char} {t : Nat} {fs' : FS}
    (hw : FS.write fs path content t = some fs') :
    fs'.locked = fs.locked ∧ fs'.unwritable = fs.unwritable ∧ path ∉ fs.unwritable ∧
    fs'.files = (if fs.hasFile path then
        fs.files.map (fun fe => if fe.path == path then ⟨path, content, t⟩ else fe)
      else fs.files ++ [⟨path, content, t⟩]) := by
  unfold FS.write at hw
  split at hw
  · cases hw
  · rename_i hnw
    cases hw
    exact ⟨rfl, rfl, hnw, rfl⟩

theorem find?_map_update (files : List FileEntry) (path : String)
    (content : List Char) (t : Nat)
    (h : files.find? (fun fe => fe.path == path) ≠ none) :
    (files.map (fun fe => if fe.path == path then ⟨path, content, t⟩ else fe)).find?
        (fun fe => fe.path == path) = some ⟨path, content, t⟩ := by
  induction files with
  | nil => simp [List.find?] at h
  | cons fe rest ih =>
      by_cases hfe : fe.path = path
      · simp [List.find?, hfe]
      · have hfe2 : (fe.path == path) = false := by simp [hfe]
        rw [List.find?] at h
        rw [hfe2] at h
        simp only [List.map_cons, if_neg (by simp [hfe] : ¬((fe.path == path) = true))]
        rw [List.find?, hfe2]
        exact ih h

theorem find?_append_last (files : List FileEntry) (path : String)
    (nf : FileEntry) (hnf : nf.path = path)
    (h : ∀ fe ∈ files, fe.path ≠ path) :
    (files ++ [nf]).find? (fun fe => fe.path == path) = some nf := by
  induction files with
  | nil => simp [List.find?, hnf]
  | cons fe rest ih =>
      have hfe : fe.path ≠ path := h fe (List.mem_cons_self _ _)
      rw [List.cons_append, List.find?]
      rw [show (fe.path == path) = false from by simp [hfe]]
      exact ih (fun x hx => h x (List.mem_cons_of_mem _ hx))

theorem write_lookup {fs : FS} {path : String} {content : List Char} {t : Nat} {fs' : FS}
    (hw : FS.write fs path content t = some fs') :
    fs'.lookup path = some ⟨path, content, t⟩ := by
  obtain ⟨-, -, -, hfiles⟩ := write_inv hw
  unfold FS.lookup
  rw [hfiles]
  by_cases hex : fs.hasFile path
  · rw [if_pos hex]
    apply find?_map_update
    unfold FS.hasFile FS.lookup at hex
    intro hnone
    rw [hnone] at hex
    simp at hex
  · rw [if_neg hex]
    exact find?_append_last _ _ _ rfl
      (hasFile_false_path_ne fs path (by simpa using hex))

theorem write_mtimeOf {fs : FS} {path : String} {content : List Char} {t : Nat} {fs' : FS}
    (hw : FS.write fs path content t = some fs') : fs'.mtimeOf path = t := by
  unfold FS.mtimeOf
  rw [write_lookup hw]

theorem write_hasFile {fs : FS} {path : String} {content : List Char} {t : Nat} {fs' : FS}
    (hw : FS.write fs path content t = some fs') : fs'.hasFile path = true := by
  unfold FS.hasFile
  rw [write_lookup hw]
  rfl

/-! ### The eviction-manager invariant (C2) -/

/-- The invariant maintained by the cache bookkeeping: the tracked list is
sorted by mtime, every tracked or evicted mtime precedes the clock, and
every evicted entry is no newer than every retained entry. -/
def GoodState (st : CacheState) : Prop :=
  st.cacheFileList.Pairwise mtimeLe ∧
  (∀ r ∈ st.cacheFileList, r.1 < st.clock) ∧
  (∀ e ∈ st.evictedLog, e.1 < st.clock) ∧
  (∀ e ∈ st.evictedLog, ∀ r ∈ st.cacheFileList, e.1 ≤ r.1)

theorem cleanup_good (st : CacheState) (h : GoodState st) :
    GoodState (cleanup_old_cache st) := by
  obtain ⟨h1, h2, h3, h4⟩ := h
  refine ⟨?_, ?_, ?_, ?_⟩
  · rw [cleanup_list]
    exact List.Pairwise.sublist (List.drop_sublist _ _) h1
  · intro r hr
    rw [cleanup_list] at hr
    rw [cleanup_clock]
    exact h2 r (List.mem_of_mem_drop hr)
  · intro e he
    rw [cleanup_log] at he
    rw [cleanup_clock]
    rcases List.mem_append.mp he with h5 | h5
    · exact h2 e (List.mem_of_mem_take (List.mem_reverse.mp h5))
    · exact h3 e h5
  · intro e he r hr
    rw [cleanup_log] at he
    rw [cleanup_list] at hr
    rcases List.mem_append.mp he with h5 | h5
    · exact pairwise_take_drop h1 _ e (List.mem_reverse.mp h5) r hr
    · exact h4 e h5 r (List.mem_of_mem_drop hr)

theorem add_cache_file_good (st : CacheState) (path : String)
    (h : GoodState st) (hm : st.fs.mtimeOf path < st.clock)
    (hm2 : ∀ e ∈ st.evictedLog, e.1 ≤ st.fs.mtimeOf path) :
    GoodState (_add_cache_file st path) := by
  obtain ⟨h1, h2, h3, h4⟩ := h
  unfold _add_cache_file
  split
  · exact ⟨h1, h2, h3, h4⟩
  · apply cleanup_good
    refine ⟨sortByMtime_sorted _, ?_, h3, ?_⟩
    · intro r hr
      have hr2 := (sortByMtime_perm _).mem_iff.mp hr
      rcases updateEntry_mem _ _ _ r hr2 with h5 | h5
      · exact h2 r h5
      · rw [h5]
        exact hm
    · intro e he r hr
      have hr2 := (sortByMtime_perm _).mem_iff.mp hr
      rcases updateEntry_mem _ _ _ r hr2 with h5 | h5
      · exact h4 e he r h5
      · rw [h5]
        exact hm2 e he

theorem save_cache_good (st : CacheState) (path : String) (df : DataFrame)
    (h : GoodState st) : GoodState (save_cache st path df).2 := by
  unfold save_cache
  cases hw : st.fs.write path (toCsv df) st.clock with
  | none => exact h
  | some fs' =>
      obtain ⟨h1, h2, h3, h4⟩ := h
      apply add_cache_file_good
      · exact ⟨h1, fun r hr => Nat.lt_succ_of_lt (h2 r hr),
          fun e he => Nat.lt_succ_of_lt (h3 e he), h4⟩
      · show fs'.mtimeOf path < st.clock + 1
        rw [write_mtimeOf hw]
        exact Nat.lt_succ_self _
      · intro e he
        show e.1 ≤ fs'.mtimeOf path
        rw [write_mtimeOf hw]
        exact Nat.le_of_lt (h3 e he)

theorem add_cache_file_maxEntries (st : CacheState) (path : String) :
    (_add_cache_file st path).maxEntries = st.maxEntries := by
  unfold _add_cache_file
  split
  · rfl
  · rw [cleanup_maxEntries]

theorem save_cache_snd (st : CacheState) (path : String) (df : DataFrame) :
    (save_cache st path df).2 = (match st.fs.write path (toCsv df) st.clock with
      | none => st
      | some fs' =>
          _add_cache_file
            (modify_df_path { st with fs := fs', clock := st.clock + 1 } path) path) := by
  unfold save_cache
  cases st.fs.write path (toCsv df) st.clock <;> rfl

theorem save_cache_maxEntries (st : CacheState) (path : String) (df : DataFrame) :
    (save_cache st path df).2.maxEntries = st.maxEntries := by
  rw [save_cache_snd]
  cases hw : st.fs.write path (toCsv df) st.clock with
  | none => rfl
  | some fs' =>
      rw [add_cache_file_maxEntries]
      rfl

theorem save_cache_bound (st : CacheState) (path : String) (df : DataFrame)
    (h : st.cacheFileList.length ≤ st.maxEntries) :
    (save_cache st path df).2.cacheFileList.length ≤
      (save_cache st path df).2.maxEntries := by
  rw [save_cache_snd]
  cases hw : st.fs.write path (toCsv df) st.clock with
  | none => exact h
  | some fs' =>
      show (_add_cache_file
          (modify_df_path { st with fs := fs', clock := st.clock + 1 } path)
          path).cacheFileList.length ≤
        (_add_cache_file
          (modify_df_path { st with fs := fs', clock := st.clock + 1 } path)
          path).maxEntries
      unfold _add_cache_file
      split
      · exact h
      · simp only [cleanup_length, cleanup_maxEntries]
        exact Nat.min_le_right _ _

/-- The orchestration loop for C2: a sequence of `save_cache` calls. -/
def runSaves : CacheState → List (String × DataFrame) → CacheState
  | st, [] => st
  | st, (path, df) :: rest => runSaves (save_cache st path df).2 rest

theorem runSaves_good : ∀ (ops : List (String × DataFrame)) (st : CacheState),
    GoodState st → GoodState (runSaves st ops)
  | [], _, h => h
  | (path, df) :: rest, st, h =>
      runSaves_good rest _ (save_cache_good st path df h)

theorem runSaves_maxEntries : ∀ (ops : List (String × DataFrame)) (st : CacheState),
    (runSaves st ops).maxEntries = st.maxEntries
  | [], _ => rfl
  | (path, df) :: rest, st => by
      show (runSaves (save_cache st path df).2 rest).maxEntries = st.maxEntries
      rw [runSaves_maxEntries rest _, save_cache_maxEntries]

theorem runSaves_bound : ∀ (ops : List (String × DataFrame)) (st : CacheState),
    st.cacheFileList.length ≤ st.maxEntries →
    (runSaves st ops).cacheFileList.length ≤ (runSaves st ops).maxEntries
  | [], _, h => h
  | (path, df) :: rest, st, h => by
      show (runSaves (save_cache st path df).2 rest).cacheFileList.length ≤ _
      apply runSaves_bound rest _
      exact save_cache_bound st path df h

/-- C2: starting from a fresh cache manager, after any sequence of saves
(each save running the eviction pass) the number of tracked entries never
exceeds the configured maximum, the tracked list remains sorted oldest
first by modification time, and every entry ever evicted is no newer than
every retained entry — i.e. the retained entries are the most recently
written ones and the oldest are evicted first. -/
theorem cache_bound_invariant (fs0 : FS) (maxE c0 : Nat) (p0 : String)
    (ops : List (String × DataFrame)) :
    (runSaves ⟨fs0, [], maxE, p0, [], c0⟩ ops).cacheFileList.length ≤ maxE ∧
    (runSaves ⟨fs0, [], maxE, p0, [], c0⟩ ops).cacheFileList.Pairwise mtimeLe ∧
    ∀ e ∈ (runSaves ⟨fs0, [], maxE, p0, [], c0⟩ ops).evictedLog,
      ∀ r ∈ (runSaves ⟨fs0, [], maxE, p0, [], c0⟩ ops).cacheFileList, e.1 ≤ r.1 := by
  have hgood : GoodState (runSaves ⟨fs0, [], maxE, p0, [], c0⟩ ops) :=
    runSaves_good ops _ ⟨List.Pairwise.nil, by simp, by simp, by simp⟩
  have hbound := runSaves_bound ops ⟨fs0, [], maxE, p0, [], c0⟩ (by simp)
  rw [runSaves_maxEntries] at hbound
  exact ⟨hbound, hgood.1, hgood.2.2.2⟩

/-! ### CSV round-trip (C5) -/

/-- A cell value that survives the CSV encoding: non-empty, comma-free and
newline-free. -/
def goodCell (s : String) : Prop :=
  s ≠ "" ∧ (',') ∉ s.data ∧ ('\n') ∉ s.data

/-- A frame whose CSV serialization is lossless: non-empty, rectangular,
with good cells and column names. -/
def WellFormedDf (df : DataFrame) : Prop :=
  df.cols ≠ [] ∧ df.rows ≠ [] ∧ (∀ c ∈ df.cols, goodCell c) ∧
    ∀ r ∈ df.rows, r.length = df.cols.length ∧ ∀ c ∈ r, goodCell c

instance (s : String) : Decidable (goodCell s) := by
  unfold goodCell
  infer_instance

instance (df : DataFrame) : Decidable (WellFormedDf df) := by
  unfold WellFormedDf
  infer_instance

theorem mk_data : ∀ s : String, String.mk s.data = s
  | ⟨_⟩ => rfl

theorem data_ne_nil (s : String) (h : s ≠ "") : s.data ≠ [] := by
  intro hd
  apply h
  rw [show ("" : String) = String.mk [] from rfl, show s = String.mk s.data from (mk_data s).symm, hd]

theorem intercalate_cons_cons_eq {α : Type} (sep a b : List α) (rest : List (List α)) :
    List.intercalate sep (a :: b :: rest) = a ++ sep ++ List.intercalate sep (b :: rest) := by
  simp [List.intercalate, List.intersperse_cons_cons]

theorem intercalate_singleton_eq {α : Type} (sep a : List α) :
    List.intercalate sep [a] = a := by
  simp [List.intercalate]

theorem lineOf_ne_nil : ∀ (cells : List String), cells ≠ [] →
    (∀ c ∈ cells, goodCell c) → lineOf cells ≠ []
  | [], hne, _ => absurd rfl hne
  | [c], _, hg => by
      rw [lineOf, List.map_singleton, intercalate_singleton_eq]
      exact data_ne_nil c (hg c (List.mem_singleton_self c)).1
  | c :: d :: rest, _, hg => by
      rw [lineOf, List.map_cons, List.map_cons, intercalate_cons_cons_eq]
      intro hnil
      have h2 := congrArg List.length hnil
      simp only [List.length_append, List.length_nil, List.length_singleton] at h2
      omega

theorem newline_not_mem_lineOf : ∀ (cells : List String),
    (∀ c ∈ cells, goodCell c) → ('\n') ∉ lineOf cells
  | [], _ => by simp [lineOf, List.intercalate]
  | [c], hg => by
      rw [lineOf, List.map_singleton, intercalate_singleton_eq]
      exact (hg c (List.mem_singleton_self c)).2.2
  | c :: d :: rest, hg => by
      rw [lineOf, List.map_cons, List.map_cons, intercalate_cons_cons_eq]
      intro hmem
      rcases List.mem_append.mp hmem with h1 | h1
      · rcases List.mem_append.mp h1 with h2 | h2
        · exact (hg c (List.mem_cons_self c _)).2.2 h2
        · simp at h2
      · exact newline_not_mem_lineOf (d :: rest)
          (fun x hx => hg x (List.mem_cons_of_mem c hx)) h1

theorem splitOn_lineOf (cells : List String) (hne : cells ≠ [])
    (hg : ∀ c ∈ cells, goodCell c) :
    ((lineOf cells).splitOn (',')).map String.mk = cells := by
  rw [lineOf, List.splitOn_intercalate]
  · rw [List.map_map]
    exact List.map_congr_left (fun c _ => mk_data c) |>.trans (List.map_id cells)
  · intro l hl
    obtain ⟨c, hc, hcl⟩ := List.mem_map.mp hl
    rw [← hcl]
    exact (hg c hc).2.1
  · simpa using hne

theorem fromCsv_toCsv (df : DataFrame) (h : WellFormedDf df) :
    fromCsv (toCsv df) = some df := by
  obtain ⟨hcols, hrows, hgc, hgr⟩ := h
  have hlines : ∀ l ∈ toCsvLines df, l ≠ [] ∧ ('\n') ∉ l := by
    intro l hl
    rw [toCsvLines] at hl
    obtain ⟨cells, hcells, hline⟩ := List.mem_map.mp hl
    rcases List.mem_cons.mp hcells with hc | hc
    · rw [← hline, hc]
      exact ⟨lineOf_ne_nil _ hcols hgc, newline_not_mem_lineOf _ hgc⟩
    · rw [← hline]
      have hr := hgr cells hc
      have hcne : cells ≠ [] := by
        intro hx
        rw [hx] at hr
        exact hcols (List.eq_nil_of_length_eq_zero hr.1.symm)
      exact ⟨lineOf_ne_nil _ hcne hr.2, newline_not_mem_lineOf _ hr.2⟩
  have hsplit : (toCsv df).splitOn ('\n') = toCsvLines df ++ [[]] := by
    rw [toCsv]
    apply List.splitOn_intercalate
    · intro l hl
      rcases List.mem_append.mp hl with h1 | h1
      · exact (hlines l h1).2
      · simp only [List.mem_singleton] at h1
        rw [h1]
        simp
    · simp
  have hfilter : ((toCsv df).splitOn ('\n')).filter (fun l => !l.isEmpty) =
      toCsvLines df := by
    rw [hsplit, List.filter_append]
    have h1 : (toCsvLines df).filter (fun l => !l.isEmpty) = toCsvLines df :=
      List.filter_eq_self.mpr (fun l hl => by
        simp [List.isEmpty_eq_false_iff_exists_mem, List.isEmpty_iff]
        exact (hlines l hl).1)
    have h2 : ([[]] : List (List Char)).filter (fun l => !l.isEmpty) = [] := rfl
    rw [h1, h2, List.append_nil]
  have hbody : (df.rows.map lineOf).map
      (fun l => (List.splitOn (',') l).map String.mk) = df.rows := by
    rw [List.map_map]
    apply (List.map_congr_left ?_).trans (List.map_id df.rows)
    intro r hr
    have hrr := hgr r hr
    have hrne : r ≠ [] := by
      intro hx
      rw [hx] at hrr
      exact hcols (List.eq_nil_of_length_eq_zero hrr.1.symm)
    show ((lineOf r).splitOn (',')).map String.mk = r
    exact splitOn_lineOf r hrne hrr.2
  rw [fromCsv, hfilter, toCsvLines, List.map_cons]
  simp only
  rw [splitOn_lineOf df.cols hcols hgc, hbody]
  have hall : (df.rows.all fun r => decide (r.length = df.cols.length)) = true := by
    rw [List.all_eq_true]
    intro r hr
    simpa using (hgr r hr).1
  rw [if_pos hall]

/-! ### Retention of a freshly saved entry -/

theorem updateEntry_self : ∀ (l : List (Nat × String)) (c : Nat) (path : String),
    (c, path) ∈ updateEntry l c path
  | [], _, _ => List.mem_singleton_self _
  | (m, p) :: t, c, path => by
      by_cases hp : p = path
      · rw [updateEntry, if_pos hp]
        exact List.mem_cons_self _ _
      · rw [updateEntry, if_neg hp]
        exact List.mem_cons_of_mem _ (updateEntry_self t c path)

theorem updateEntry_mem_strong : ∀ (l : List (Nat × String)) (c : Nat) (path : String),
    (l.map Prod.snd).Nodup →
    ∀ x ∈ updateEntry l c path, x = (c, path) ∨ (x ∈ l ∧ x.2 ≠ path)
  | [], c, path, _, x, hx => by
      simp only [updateEntry, List.mem_singleton] at hx
      exact Or.inl hx
  | (m, p) :: t, c, path, hnodup, x, hx => by
      rw [List.map_cons, List.nodup_cons] at hnodup
      by_cases hp : p = path
      · rw [updateEntry, if_pos hp] at hx
        rcases List.mem_cons.mp hx with h1 | h1
        · exact Or.inl h1
        · refine Or.inr ⟨List.mem_cons_of_mem _ h1, ?_⟩
          intro hx2
          apply hnodup.1
          show p ∈ List.map Prod.snd t
          rw [hp, ← hx2]
          exact List.mem_map_of_mem Prod.snd h1
      · rw [updateEntry, if_neg hp] at hx
        rcases List.mem_cons.mp hx with h1 | h1
        · refine Or.inr ⟨h1 ▸ List.mem_cons_self _ _, ?_⟩
          rw [h1]
          exact hp
        · rcases updateEntry_mem_strong t c path hnodup.2 x h1 with h2 | h2
          · exact Or.inl h2
          · exact Or.inr ⟨List.mem_cons_of_mem _ h2.1, h2.2⟩

theorem updateEntry_snd_nodup : ∀ (l : List (Nat × String)) (c : Nat) (path : String),
    (l.map Prod.snd).Nodup → ((updateEntry l c path).map Prod.snd).Nodup
  | [], _, _, _ => by simp [updateEntry]
  | (m, p) :: t, c, path, hnodup => by
      rw [List.map_cons, List.nodup_cons] at hnodup
      by_cases hp : p = path
      · rw [updateEntry, if_pos hp, List.map_cons, List.nodup_cons]
        exact ⟨hp ▸ hnodup.1, hnodup.2⟩
      · rw [updateEntry, if_neg hp, List.map_cons, List.nodup_cons]
        refine ⟨?_, updateEntry_snd_nodup t c path hnodup.2⟩
        intro hmem
        obtain ⟨x, hxmem, hxsnd⟩ := List.mem_map.mp hmem
        rcases updateEntry_mem t c path x hxmem with h2 | h2
        · exact hnodup.1 (hxsnd ▸ List.mem_map_of_mem Prod.snd h2)
        · apply hp
          have hxp : x.2 = p := hxsnd
          rw [← hxp, h2]

theorem find?_filter_of_imp {α : Type} (l : List α) (p q : α → Bool)
    (h : ∀ a, p a = true → q a = true) :
    (l.filter q).find? p = l.find? p := by
  induction l with
  | nil => rfl
  | cons a t ih =>
      by_cases hq : q a
      · rw [List.filter_cons_of_pos hq, List.find?_cons, List.find?_cons]
        cases hp : p a
        · exact ih
        · rfl
      · rw [List.filter_cons_of_neg hq, List.find?_cons]
        have hp : p a = false := by
          cases hpa : p a
          · rfl
          · exact absurd (h a hpa) hq
        rw [hp]
        exact ih

/-- A freshly stamped entry (whose mtime exceeds every tracked mtime) is
never among the eviction victims of the following cleanup pass, and ends up
retained, provided the bound is at least one and tracked paths are unique. -/
theorem fresh_entry_retained (l : List (Nat × String)) (c : Nat) (path : String)
    (maxE : Nat) (hmax : 1 ≤ maxE)
    (hclock : ∀ r ∈ l, r.1 < c)
    (hnodup : (l.map Prod.snd).Nodup) :
    path ∉ (((sortByMtime (updateEntry l c path)).take
        ((sortByMtime (updateEntry l c path)).length - maxE)).map Prod.snd) ∧
    (c, path) ∈ ((sortByMtime (updateEntry l c path)).drop
        ((sortByMtime (updateEntry l c path)).length - maxE)) := by
  set s := sortByMtime (updateEntry l c path) with hs
  set k := s.length - maxE with hk
  have hperm := sortByMtime_perm (updateEntry l c path)
  have hsort := sortByMtime_sorted (updateEntry l c path)
  have hmem_s : (c, path) ∈ s := hperm.mem_iff.mpr (updateEntry_self l c path)
  have hnodup_s : s.Nodup :=
    hperm.nodup_iff.mpr ((updateEntry_snd_nodup l c path hnodup).of_map _)
  have hlen : 1 ≤ s.length := List.length_pos.mpr (List.ne_nil_of_mem hmem_s)
  have hdrop_ne : s.drop k ≠ [] := by
    intro hnil
    have hlend := List.length_drop k s
    rw [hnil] at hlend
    simp only [List.length_nil] at hlend
    omega
  have hnot_take : path ∉ ((s.take k).map Prod.snd) := by
    intro hmem
    obtain ⟨x, hxtake, hxsnd⟩ := List.mem_map.mp hmem
    have hxs : x ∈ s := List.mem_of_mem_take hxtake
    have hx_eq : x = (c, path) := by
      rcases updateEntry_mem_strong l c path hnodup x (hperm.mem_iff.mp hxs) with h2 | h2
      · exact h2
      · exact absurd hxsnd h2.2
    obtain ⟨r, hr⟩ := List.exists_mem_of_ne_nil _ hdrop_ne
    have hle : mtimeLe x r := pairwise_take_drop hsort k x hxtake r hr
    rcases updateEntry_mem_strong l c path hnodup r
        (hperm.mem_iff.mp (List.mem_of_mem_drop hr)) with h3 | h3
    · have hnd : (s.take k ++ s.drop k).Nodup := by
        rw [List.take_append_drop]
        exact hnodup_s
      have hdisj := (List.nodup_append.mp hnd).2.2
      exact hdisj hxtake (by rw [hx_eq.trans h3.symm]; exact hr)
    · rw [hx_eq] at hle
      exact absurd (hclock r h3.1) (Nat.not_lt.mpr hle)
  refine ⟨hnot_take, ?_⟩
  have hsplit2 : (c, path) ∈ s.take k ++ s.drop k := by
    rw [List.take_append_drop]
    exact hmem_s
  rcases List.mem_append.mp hsplit2 with h1 | h1
  · exact absurd (List.mem_map_of_mem Prod.snd h1) hnot_take
  · exact h1

/-- A successful `save_cache` leaves the most-recently-cached-path pointer
on the saved path, the written file findable on disk (it is never its own
eviction victim), and the path tracked in the bookkeeping list. -/
theorem save_cache_success (st : CacheState) (path : String) (df : DataFrame)
    (hwrit : path ∉ st.fs.unwritable)
    (hmax : 1 ≤ st.maxEntries)
    (hclock : ∀ r ∈ st.cacheFileList, r.1 < st.clock)
    (hnodup : (st.cacheFileList.map Prod.snd).Nodup) :
    (save_cache st path df).1 = none ∧
    (save_cache st path df).2.fs.lookup path = some ⟨path, toCsv df, st.clock⟩ ∧
    (save_cache st path df).2.dfCachePath = path ∧
    path ∈ ((save_cache st path df).2.cacheFileList.map Prod.snd) := by
  cases hw : st.fs.write path (toCsv df) st.clock with
  | none =>
      exfalso
      unfold FS.write at hw
      rw [if_neg hwrit] at hw
      exact Option.noConfusion hw
  | some fs' =>
      have hsave : save_cache st path df =
          (none, _add_cache_file
            (modify_df_path { st with fs := fs', clock := st.clock + 1 } path) path) := by
        unfold save_cache
        rw [hw]
      have hlocked : fs'.locked = st.fs.locked := (write_inv hw).1
      have hhas : fs'.hasFile path = true := write_hasFile hw
      have hmt : fs'.mtimeOf path = st.clock := write_mtimeOf hw
      have hadd : _add_cache_file
          (modify_df_path { st with fs := fs', clock := st.clock + 1 } path) path =
          cleanup_old_cache
            { fs := fs', cacheFileList :=
                sortByMtime (updateEntry st.cacheFileList st.clock path),
              maxEntries := st.maxEntries, dfCachePath := path,
              evictedLog := st.evictedLog, clock := st.clock + 1 } := by
        unfold _add_cache_file
        rw [if_neg (by
          show ¬(fs'.hasFile path = false)
          rw [hhas]
          simp)]
        show cleanup_old_cache
            { fs := fs', cacheFileList :=
                sortByMtime (updateEntry st.cacheFileList (fs'.mtimeOf path) path),
              maxEntries := st.maxEntries, dfCachePath := path,
              evictedLog := st.evictedLog, clock := st.clock + 1 } =
          cleanup_old_cache
            { fs := fs', cacheFileList :=
                sortByMtime (updateEntry st.cacheFileList st.clock path),
              maxEntries := st.maxEntries, dfCachePath := path,
              evictedLog := st.evictedLog, clock := st.clock + 1 }
        rw [hmt]
      obtain ⟨hnot_take, hin_drop⟩ :=
        fresh_entry_retained st.cacheFileList st.clock path st.maxEntries hmax hclock hnodup
      rw [hsave, hadd]
      refine ⟨rfl, ?_, ?_, ?_⟩
      · show ((cleanup_old_cache _).fs.files.find? (fun fe => fe.path == path)) = _
        rw [cleanup_files]
        rw [find?_filter_of_imp]
        · exact write_lookup hw
        · intro fe hfe
          have hfp : fe.path = path := by simpa using hfe
          unfold keepB
          rw [hfp]
          simp only [decide_eq_true_eq]
          exact Or.inr hnot_take
      · rw [cleanup_dfCachePath]
      · rw [cleanup_list]
        exact List.mem_map_of_mem Prod.snd hin_drop

/-- C5: for every non-empty well-formed table, a successful
`save_cache(path, T)` followed by `load_cache(path)` returns a table equal
to T (projection to the same columns is the identity here, since the CSV
payload stores exactly T's columns). -/
theorem save_load_roundtrip (st : CacheState) (path : String) (df : DataFrame)
    (hdf : WellFormedDf df) (hwrit : path ∉ st.fs.unwritable)
    (hmax : 1 ≤ st.maxEntries)
    (hclock : ∀ r ∈ st.cacheFileList, r.1 < st.clock)
    (hnodup : (st.cacheFileList.map Prod.snd).Nodup) :
    (save_cache st path df).1 = none ∧
    load_cache (save_cache st path df).2.fs path = some df := by
  obtain ⟨h1, h2, h3, h4⟩ := save_cache_success st path df hwrit hmax hclock hnodup
  refine ⟨h1, ?_⟩
  have hex : cache_exists (save_cache st path df).2.fs path = true := by
    unfold cache_exists FS.hasFile
    rw [h2]
    rfl
  unfold load_cache
  rw [hex]
  simp only [Bool.true_eq_false, if_false]
  rw [h2]
  simp only
  rw [fromCsv_toCsv df hdf]
  have hemp : df.empty = false := by
    unfold DataFrame.empty
    obtain ⟨hc, hr, _, _⟩ := hdf
    simp [List.isEmpty_iff, hc, hr]
  simp [hemp]

/-- A well-formed one-row basic table used as a concrete payload. -/
def df1 : DataFrame :=
  ⟨[("date"), ("open"), ("high"), ("low"), ("close"), ("volume"), ("amount")],
   [[("20241002"), ("10"), ("12"), ("9"), ("11"), ("1000"), ("5000")]]⟩

/-- A fresh cache-module state over an empty filesystem. -/
def stEmpty : CacheState := ⟨⟨[], [], []⟩, [], 100, "", [], 0⟩

/-- C5 witness: saving and re-loading a concrete table returns it. -/
theorem save_load_roundtrip_witness :
    (save_cache stEmpty ("x.csv") df1).1 = none ∧
    load_cache (save_cache stEmpty ("x.csv") df1).2.fs ("x.csv") = some df1 :=
  save_load_roundtrip stEmpty ("x.csv") df1 (by decide) (by decide) (by decide)
    (by decide) (by decide)

/-- C10: `save_cache` is atomic with respect to its bookkeeping: when the
underlying write fails it raises `CacheSaveError` and returns with the
whole module state — in particular the most-recently-cached-path pointer
and the tracked file list — unmodified (in the source, `modify_df_path`
and `_add_cache_file` run strictly after `to_csv` inside the `try`); when
the write succeeds, the pointer is set to the saved path and the path is
tracked. -/
theorem save_cache_atomic_bookkeeping (st : CacheState) (path : String) (df : DataFrame)
    (hmax : 1 ≤ st.maxEntries)
    (hclock : ∀ r ∈ st.cacheFileList, r.1 < st.clock)
    (hnodup : (st.cacheFileList.map Prod.snd).Nodup) :
    (path ∈ st.fs.unwritable →
      save_cache st path df = (some (Err.cacheSave path), st)) ∧
    (path ∉ st.fs.unwritable →
      (save_cache st path df).1 = none ∧
      (save_cache st path df).2.dfCachePath = path ∧
      path ∈ ((save_cache st path df).2.cacheFileList.map Prod.snd)) := by
  constructor
  · intro hmem
    unfold save_cache FS.write
    rw [if_pos hmem]
  · intro hnmem
    obtain ⟨h1, h2, h3, h4⟩ := save_cache_success st path df hnmem hmax hclock hnodup
    exact ⟨h1, h3, h4⟩

/-- A state whose filesystem rejects writes to the target path. -/
def stUnwritable : CacheState := ⟨⟨[], [], [("x.csv")]⟩, [], 100, ("old"), [], 0⟩

/-- C10 witness: a failing write raises `CacheSaveError` and leaves the
state (pointer and tracked list) untouched; a succeeding write updates
both. -/
theorem save_cache_atomic_bookkeeping_witness :
    save_cache stUnwritable ("x.csv") df1 =
      (some (Err.cacheSave ("x.csv")), stUnwritable) ∧
    ((save_cache stEmpty ("x.csv") df1).1 = none ∧
      (save_cache stEmpty ("x.csv") df1).2.dfCachePath = ("x.csv") ∧
      ("x.csv") ∈ ((save_cache stEmpty ("x.csv") df1).2.cacheFileList.map Prod.snd)) :=
  ⟨(save_cache_atomic_bookkeeping stUnwritable ("x.csv") df1 (by decide) (by decide)
      (by decide)).1 (by decide),
    (save_cache_atomic_bookkeeping stEmpty ("x.csv") df1 (by decide) (by decide)
      (by decide)).2 (by decide)⟩

/-! ### Evaluation of `get_stock_history` under resolved parameters -/

/-- `get_stock_history` with the module context fixed and the state last, for
stating repeated calls. -/
def ghRun (reg : Registry HistFn) (dflt root : String)
    (market code start endd : String) (source freq : Option String)
    (klt fqt : Int) (fields : String) (st : CacheState) : HistOutcome :=
  get_stock_history reg dflt root st market code start endd source freq klt fqt fields

theorem get_stock_history_eq (reg : Registry HistFn) (dflt root : String)
    (st : CacheState) (market code start endd : String) (source freq : Option String)
    (klt fqt : Int) (fields : String) (s8 e8 : String)
    (caps : List (String × HistFn)) (freq1 : Option String) (klt1 : Int)
    (hs : parse_date_str start = Except.ok s8)
    (he : parse_date_str endd = Except.ok e8)
    (hsrc : lookupStr reg (lowerStr (source.getD dflt)) = some caps)
    (hk : resolveKlt freq klt = Except.ok (freq1, klt1)) :
    ghRun reg dflt root market code start endd source freq klt fqt fields st =
      (if cache_exists st.fs (get_cache_path root (lowerStr market) code s8 e8 klt1 fqt) then
        match load_cache st.fs (get_cache_path root (lowerStr market) code s8 e8 klt1 fqt) with
        | some dfc =>
            if dfc.empty = false then
              ⟨_validate_dataframe dfc fields,
                modify_df_path st (get_cache_path root (lowerStr market) code s8 e8 klt1 fqt), 0⟩
            else history_fetch caps (lowerStr (source.getD dflt)) st
              (get_cache_path root (lowerStr market) code s8 e8 klt1 fqt)
              ⟨lowerStr market, code, s8, e8, freq1, klt1, fqt, fields⟩
        | none => history_fetch caps (lowerStr (source.getD dflt)) st
            (get_cache_path root (lowerStr market) code s8 e8 klt1 fqt)
            ⟨lowerStr market, code, s8, e8, freq1, klt1, fqt, fields⟩
      else history_fetch caps (lowerStr (source.getD dflt)) st
        (get_cache_path root (lowerStr market) code s8 e8 klt1 fqt)
        ⟨lowerStr market, code, s8, e8, freq1, klt1, fqt, fields⟩) := by
  have hcond : ¬(lowerStr (source.getD dflt) = "tushare" ∧
      (lookupStr reg ("tushare")).isNone = true) := by
    intro hc
    have h2 := hc.2
    rw [← hc.1, hsrc] at h2
    simp at h2
  unfold ghRun get_stock_history
  rw [hs, he]
  simp only [if_neg hcond, hsrc, hk]

theorem load_cache_exists {fs : FS} {path : String} {df : DataFrame}
    (h : load_cache fs path = some df) : cache_exists fs path = true := by
  unfold load_cache at h
  cases hc : cache_exists fs path with
  | false => rw [if_pos hc] at h; cases h
  | true => rfl

theorem load_cache_nonempty {fs : FS} {path : String} {df : DataFrame}
    (h : load_cache fs path = some df) : df.empty = false := by
  unfold load_cache at h
  split at h
  · cases h
  · split at h
    · cases h
    · split at h
      · cases h
      · rename_i hcond
        split at h
        · cases h
        · rename_i hcond2
          cases h
          simpa using hcond2

/-- After a successful save, loading the same path returns the saved frame
(the load path of C1's second call). -/
theorem load_after_save (st : CacheState) (path : String) (df : DataFrame)
    (hdf : WellFormedDf df) (hwrit : path ∉ st.fs.unwritable)
    (hmax : 1 ≤ st.maxEntries)
    (hclock : ∀ r ∈ st.cacheFileList, r.1 < st.clock)
    (hnodup : (st.cacheFileList.map Prod.snd).Nodup) :
    load_cache (save_cache st path df).2.fs path = some df :=
  (save_load_roundtrip st path df hdf hwrit hmax hclock hnodup).2

/-- C1: a cache hit returns the validated cached table with zero provider
invocations, and the immediately repeated identical call is byte-for-byte
the same outcome, again with zero invocations (so two calls make at most
one provider call in total); moreover on a cache miss whose fetched table
persists, the first call makes exactly one provider invocation and the
repeated identical call makes none — one provider call across the two. -/
theorem cache_hit_skips_provider
    (reg : Registry HistFn) (dflt root : String) (st : CacheState)
    (market code start endd : String) (source freq : Option String)
    (klt fqt : Int) (fields : String) (s8 e8 : String)
    (caps : List (String × HistFn)) (freq1 : Option String) (klt1 : Int)
    (hs : parse_date_str start = Except.ok s8)
    (he : parse_date_str endd = Except.ok e8)
    (hsrc : lookupStr reg (lowerStr (source.getD dflt)) = some caps)
    (hk : resolveKlt freq klt = Except.ok (freq1, klt1)) :
    (∀ dfc : DataFrame,
      load_cache st.fs (get_cache_path root (lowerStr market) code s8 e8 klt1 fqt) = some dfc →
      ghRun reg dflt root market code start endd source freq klt fqt fields st =
        ⟨_validate_dataframe dfc fields,
          modify_df_path st (get_cache_path root (lowerStr market) code s8 e8 klt1 fqt), 0⟩ ∧
      ghRun reg dflt root market code start endd source freq klt fqt fields
        (modify_df_path st (get_cache_path root (lowerStr market) code s8 e8 klt1 fqt)) =
        ⟨_validate_dataframe dfc fields,
          modify_df_path st (get_cache_path root (lowerStr market) code s8 e8 klt1 fqt), 0⟩ ∧
      (ghRun reg dflt root market code start endd source freq klt fqt fields st).calls +
        (ghRun reg dflt root market code start endd source freq klt fqt fields
          (ghRun reg dflt root market code start endd source freq klt fqt fields st).state).calls ≤ 1) ∧
    (∀ (f : HistFn) (df : DataFrame),
      lookupStr caps ("history") = some f →
      cache_exists st.fs (get_cache_path root (lowerStr market) code s8 e8 klt1 fqt) = false →
      f ⟨lowerStr market, code, s8, e8, freq1, klt1, fqt, fields⟩ = Except.ok df →
      WellFormedDf df →
      (get_cache_path root (lowerStr market) code s8 e8 klt1 fqt) ∉ st.fs.unwritable →
      1 ≤ st.maxEntries →
      (∀ r ∈ st.cacheFileList, r.1 < st.clock) →
      (st.cacheFileList.map Prod.snd).Nodup →
      (ghRun reg dflt root market code start endd source freq klt fqt fields st).calls = 1 ∧
      (ghRun reg dflt root market code start endd source freq klt fqt fields
        (ghRun reg dflt root market code start endd source freq klt fqt fields st).state).calls = 0 ∧
      (ghRun reg dflt root market code start endd source freq klt fqt fields st).calls +
        (ghRun reg dflt root market code start endd source freq klt fqt fields
          (ghRun reg dflt root market code start endd source freq klt fqt fields st).state).calls ≤ 1) := by
  constructor
  · intro dfc hload
    have hex := load_cache_exists hload
    have hne := load_cache_nonempty hload
    have h1 : ghRun reg dflt root market code start endd source freq klt fqt fields st =
        ⟨_validate_dataframe dfc fields,
          modify_df_path st (get_cache_path root (lowerStr market) code s8 e8 klt1 fqt), 0⟩ := by
      rw [get_stock_history_eq reg dflt root st market code start endd source freq klt fqt
        fields s8 e8 caps freq1 klt1 hs he hsrc hk]
      rw [if_pos hex, hload]
      simp only [hne, if_pos]
    have h2 : ghRun reg dflt root market code start endd source freq klt fqt fields
        (modify_df_path st (get_cache_path root (lowerStr market) code s8 e8 klt1 fqt)) =
        ⟨_validate_dataframe dfc fields,
          modify_df_path st (get_cache_path root (lowerStr market) code s8 e8 klt1 fqt), 0⟩ := by
      rw [get_stock_history_eq reg dflt root _ market code start endd source freq klt fqt
        fields s8 e8 caps freq1 klt1 hs he hsrc hk]
      have hfs : (modify_df_path st
          (get_cache_path root (lowerStr market) code s8 e8 klt1 fqt)).fs = st.fs := rfl
      rw [hfs, if_pos hex, hload]
      simp only [hne, if_pos]
      rfl
    refine ⟨h1, h2, ?_⟩
    have hstate := congrArg HistOutcome.state h1
    have hc1 := congrArg HistOutcome.calls h1
    have hc2 := congrArg HistOutcome.calls h2
    dsimp only at hstate hc1 hc2
    rw [hstate, hc1, hc2]
    omega
  · intro f df hf hmiss hcall hdf hwrit hmax hclock hnodup
    have hne : df.empty = false := by
      unfold DataFrame.empty
      obtain ⟨hc, hr, _, _⟩ := hdf
      simp [List.isEmpty_iff, hc, hr]
    obtain ⟨hs1, hs2, hs3, hs4⟩ :=
      save_cache_success st (get_cache_path root (lowerStr market) code s8 e8 klt1 fqt)
        df hwrit hmax hclock hnodup
    have h1 : ghRun reg dflt root market code start endd source freq klt fqt fields st =
        ⟨_validate_dataframe df fields,
          modify_df_path
            (save_cache st (get_cache_path root (lowerStr market) code s8 e8 klt1 fqt) df).2
            (get_cache_path root (lowerStr market) code s8 e8 klt1 fqt), 1⟩ := by
      rw [get_stock_history_eq reg dflt root st market code start endd source freq klt fqt
        fields s8 e8 caps freq1 klt1 hs he hsrc hk]
      rw [if_neg (by rw [hmiss]; simp)]
      unfold history_fetch
      simp only [hf, hcall]
      rw [if_neg (show ¬(df.empty = true) by simp [hne])]
      have hpair : save_cache st (get_cache_path root (lowerStr market) code s8 e8 klt1 fqt) df =
          (none, (save_cache st (get_cache_path root (lowerStr market) code s8 e8 klt1 fqt) df).2) := by
        rw [← hs1]
      rw [hpair]
    have hload2 : load_cache
        (modify_df_path
          (save_cache st (get_cache_path root (lowerStr market) code s8 e8 klt1 fqt) df).2
          (get_cache_path root (lowerStr market) code s8 e8 klt1 fqt)).fs
        (get_cache_path root (lowerStr market) code s8 e8 klt1 fqt) = some df := by
      have hfs : (modify_df_path
          (save_cache st (get_cache_path root (lowerStr market) code s8 e8 klt1 fqt) df).2
          (get_cache_path root (lowerStr market) code s8 e8 klt1 fqt)).fs =
          (save_cache st (get_cache_path root (lowerStr market) code s8 e8 klt1 fqt) df).2.fs := rfl
      rw [hfs]
      exact load_after_save st _ df hdf hwrit hmax hclock hnodup
    have h2 : (ghRun reg dflt root market code start endd source freq klt fqt fields
        (ghRun reg dflt root market code start endd source freq klt fqt fields st).state).calls = 0 := by
      rw [h1]
      dsimp only
      rw [get_stock_history_eq reg dflt root _ market code start endd source freq klt fqt
        fields s8 e8 caps freq1 klt1 hs he hsrc hk]
      rw [if_pos (load_cache_exists hload2)]
      simp only [hload2]
      rw [if_pos (load_cache_nonempty hload2)]
    have hc1 : (ghRun reg dflt root market code start endd source freq klt fqt fields st).calls = 1 := by
      rw [h1]
    refine ⟨hc1, h2, ?_⟩
    rw [hc1, h2]

/-- A provider returning a complete one-row table. -/
def histFnOk : HistFn := fun _ => Except.ok df1

/-- A registry exposing `histFnOk` as the spider history capability. -/
def regSpider : Registry HistFn := [("spider", [("history", histFnOk)])]

/-- The derived cache path of the witness query. -/
def hitPath : String :=
  get_cache_path (".cache") (lowerStr ("cn")) ("600519") ("20241002") ("20241012") 101 1

/-- A state whose cache already holds the witness query's table. -/
def stHit : CacheState :=
  ⟨⟨[⟨hitPath, toCsv df1, 0⟩], [], []⟩, [(0, hitPath)], 100, "", [], 1⟩

/-- C1 witness: with the cache pre-populated, the call returns the
validated cached table with zero provider invocations, and two identical
calls make at most one provider call in total. -/
theorem cache_hit_skips_provider_witness :
    (ghRun regSpider ("spider") (".cache") ("cn") ("600519") ("2024-10-02") ("2024-10-12")
        none none 101 1 ("basic") stHit =
      ⟨_validate_dataframe df1 ("basic"), modify_df_path stHit
        (get_cache_path (".cache") (lowerStr ("cn")) ("600519") ("20241002") ("20241012") 101 1), 0⟩) ∧
    (ghRun regSpider ("spider") (".cache") ("cn") ("600519") ("2024-10-02") ("2024-10-12")
        none none 101 1 ("basic") stHit).calls +
      (ghRun regSpider ("spider") (".cache") ("cn") ("600519") ("2024-10-02") ("2024-10-12")
        none none 101 1 ("basic")
        (ghRun regSpider ("spider") (".cache") ("cn") ("600519") ("2024-10-02") ("2024-10-12")
          none none 101 1 ("basic") stHit).state).calls ≤ 1 :=
  have h := (cache_hit_skips_provider regSpider ("spider") (".cache") stHit ("cn") ("600519")
    ("2024-10-02") ("2024-10-12") none none 101 1 ("basic") ("20241002") ("20241012")
    [(("history"), histFnOk)] none 101 (by decide) (by decide) rfl rfl).1 df1 (by decide)
  ⟨h.1, h.2.2⟩

/-! ### C3: a table missing `volume` raises but is cached first -/

theorem volume_mem_required (fields : String) : ("volume") ∈ requiredCols fields := by
  unfold requiredCols REQUIRED_FULL REQUIRED_BASIC
  split <;> simp

theorem validate_error_of_missing (df : DataFrame) (fields : String)
    (h : (requiredCols fields).filter (fun c => !df.cols.contains c) ≠ []) :
    _validate_dataframe df fields = Except.error
      (Err.dataFormat ((requiredCols fields).filter (fun c => !df.cols.contains c))) := by
  unfold _validate_dataframe validateAgainst
  rw [if_neg (by simpa [List.isEmpty_iff] using h)]

/-- C3 (amended): a registered provider returning a non-empty table missing
the `volume` column makes `get_stock_history` raise a `DataFormatError`
naming `volume` among the missing columns — but the fetched table is
persisted to the cache *before* validation (steps in the source run in that
order), so a cache file IS written for that call. -/
theorem missing_volume_raises_but_caches
    (reg : Registry HistFn) (dflt root : String) (st : CacheState)
    (market code start endd : String) (source freq : Option String)
    (klt fqt : Int) (fields : String) (s8 e8 : String)
    (caps : List (String × HistFn)) (freq1 : Option String) (klt1 : Int)
    (f : HistFn) (df : DataFrame)
    (hs : parse_date_str start = Except.ok s8)
    (he : parse_date_str endd = Except.ok e8)
    (hsrc : lookupStr reg (lowerStr (source.getD dflt)) = some caps)
    (hk : resolveKlt freq klt = Except.ok (freq1, klt1))
    (hmiss : cache_exists st.fs (get_cache_path root (lowerStr market) code s8 e8 klt1 fqt) = false)
    (hf : lookupStr caps ("history") = some f)
    (hcall : f ⟨lowerStr market, code, s8, e8, freq1, klt1, fqt, fields⟩ = Except.ok df)
    (hne : df.empty = false)
    (hvol : ("volume") ∉ df.cols)
    (hwrit : (get_cache_path root (lowerStr market) code s8 e8 klt1 fqt) ∉ st.fs.unwritable)
    (hmax : 1 ≤ st.maxEntries)
    (hclock : ∀ r ∈ st.cacheFileList, r.1 < st.clock)
    (hnodup : (st.cacheFileList.map Prod.snd).Nodup) :
    (ghRun reg dflt root market code start endd source freq klt fqt fields st).res =
      Except.error (Err.dataFormat
        ((requiredCols fields).filter (fun c => !df.cols.contains c))) ∧
    ("volume") ∈ (requiredCols fields).filter (fun c => !df.cols.contains c) ∧
    cache_exists
      (ghRun reg dflt root market code start endd source freq klt fqt fields st).state.fs
      (get_cache_path root (lowerStr market) code s8 e8 klt1 fqt) = true := by
  have hvmem : ("volume") ∈ (requiredCols fields).filter (fun c => !df.cols.contains c) :=
    List.mem_filter.mpr ⟨volume_mem_required fields, by simp [hvol]⟩
  obtain ⟨hs1, hs2, hs3, hs4⟩ :=
    save_cache_success st (get_cache_path root (lowerStr market) code s8 e8 klt1 fqt)
      df hwrit hmax hclock hnodup
  have h1 : ghRun reg dflt root market code start endd source freq klt fqt fields st =
      ⟨_validate_dataframe df fields,
        modify_df_path
          (save_cache st (get_cache_path root (lowerStr market) code s8 e8 klt1 fqt) df).2
          (get_cache_path root (lowerStr market) code s8 e8 klt1 fqt), 1⟩ := by
    rw [get_stock_history_eq reg dflt root st market code start endd source freq klt fqt
      fields s8 e8 caps freq1 klt1 hs he hsrc hk]
    rw [if_neg (by rw [hmiss]; simp)]
    unfold history_fetch
    simp only [hf, hcall]
    rw [if_neg (show ¬(df.empty = true) by simp [hne])]
    have hpair : save_cache st (get_cache_path root (lowerStr market) code s8 e8 klt1 fqt) df =
        (none, (save_cache st (get_cache_path root (lowerStr market) code s8 e8 klt1 fqt) df).2) := by
      rw [← hs1]
    rw [hpair]
  refine ⟨?_, hvmem, ?_⟩
  · rw [h1]
    dsimp only
    exact validate_error_of_missing df fields (List.ne_nil_of_mem hvmem)
  · rw [h1]
    dsimp only
    show cache_exists
      (save_cache st (get_cache_path root (lowerStr market) code s8 e8 klt1 fqt) df).2.fs _ = true
    unfold cache_exists FS.hasFile
    rw [hs2]
    rfl

/-- A non-empty one-row table missing the `volume` column. -/
def dfNoVol : DataFrame :=
  ⟨[("date"), ("open"), ("high"), ("low"), ("close"), ("amount")],
   [[("20241002"), ("10"), ("12"), ("9"), ("11"), ("5000")]]⟩

/-- A provider returning `dfNoVol`. -/
def histFnNoVol : HistFn := fun _ => Except.ok dfNoVol

/-- A registry exposing `histFnNoVol` as the spider history capability. -/
def regNoVol : Registry HistFn := [("spider", [("history", histFnNoVol)])]

/-- C3 counterexample: at a concrete input, the call does raise a
`DataFormatError` naming `volume` — but a cache file IS written for that
call, refuting the claim that none is. -/
theorem missing_volume_counterexample :
    (ghRun regNoVol ("spider") (".cache") ("cn") ("600519") ("2024-10-02") ("2024-10-12")
        none none 101 1 ("basic") stEmpty).res =
      Except.error (Err.dataFormat [("volume")]) ∧
    cache_exists
      (ghRun regNoVol ("spider") (".cache") ("cn") ("600519") ("2024-10-02") ("2024-10-12")
        none none 101 1 ("basic") stEmpty).state.fs
      (get_cache_path (".cache") (lowerStr ("cn")) ("600519") ("20241002") ("20241012") 101 1) =
      true := by
  constructor
  · decide
  · decide

/-- C3 witness (for the amended claim) at a distinct concrete input: the
provider's table lacking `volume` yields the `DataFormatError` naming it
while the cache file exists afterwards. -/
theorem missing_volume_raises_but_caches_witness :
    (ghRun regNoVol ("spider") (".cache") ("hk") ("00700") ("2024-10-02") ("2024-10-12")
        none none 101 1 ("basic") stEmpty).res =
      Except.error (Err.dataFormat
        ((requiredCols ("basic")).filter (fun c => !dfNoVol.cols.contains c))) ∧
    ("volume") ∈ (requiredCols ("basic")).filter (fun c => !dfNoVol.cols.contains c) ∧
    cache_exists
      (ghRun regNoVol ("spider") (".cache") ("hk") ("00700") ("2024-10-02") ("2024-10-12")
        none none 101 1 ("basic") stEmpty).state.fs
      (get_cache_path (".cache") (lowerStr ("hk")) ("00700") ("20241002") ("20241012") 101 1) =
      true :=
  missing_volume_raises_but_caches regNoVol ("spider") (".cache") stEmpty ("hk") ("00700")
    ("2024-10-02") ("2024-10-12") none none 101 1 ("basic") ("20241002") ("20241012")
    [(("history"), histFnNoVol)] none 101 histFnNoVol dfNoVol
    (by decide) (by decide) rfl rfl (by decide) rfl rfl (by decide) (by decide)
    (by decide) (by decide) (by decide) (by decide)

end Yquoter
